import Mathlib

/-!
Verification of the codecity spatial layout core
(`src/codecity/analysis/tile_grid.py` and
`src/codecity/analysis/geojson_layout.py`) against its specification.

Conventions of the shallow embedding:
* Python `int` becomes `ℤ` (or `ℕ` for values that the code only ever
  uses as non-negative counts/sizes, e.g. arguments fed to `range`);
* Python `float` becomes `ℚ` — every arithmetic operation performed by the
  layout code (+, -, *, /, min, max, floor division) is exact on the
  rationals, so `ℚ` is a faithful model of the computation;
* a Python `dict` used only through `get`/`in`/item assignment (the grid
  cell map) becomes a function `Pos → Option TileContent` updated
  pointwise; a `dict` whose iteration order matters (the metrics mapping,
  the folder tree) becomes an insertion-ordered association list;
* a Python `set` used only through `add`/`in` becomes a `Finset` or a
  membership list.

Functions keep the names of the Python functions they embed.
-/

attribute [local semireducible] Rat.mul Rat.add Rat.sub Rat.inv

namespace CodeCity

/-- Grid cell coordinate `(x, y)` (Python `tuple[int, int]`). -/
abbrev Pos : Type := ℤ × ℤ

/-- Content tag of an occupied grid cell (`TileContent.type`,
a `Literal["road", "building", "reserved"]` in the source). -/
inductive TileType where
| road : TileType
| building : TileType
| reserved : TileType
deriving DecidableEq

/-- Content occupying a grid cell (`TileContent` in `tile_grid.py`). -/
structure TileContent where
  type : TileType
  owner_path : String
  depth : ℤ
deriving DecidableEq

/-- The cell map of a `TileGrid`: Python `dict[tuple[int, int], TileContent]`,
embedded as a function to `Option` (absence of a key is `none`). -/
abbrev Cells : Type := Pos → Option TileContent

/-- The empty cell map (`cells: dict = field(default_factory=dict)`). -/
def emptyCells : Cells := fun _ => none

/-- Item assignment `self.cells[pos] = content`. -/
def setCell (g : Cells) (p : Pos) (c : TileContent) : Cells :=
  fun q => if q = p then some c else g q

/-- Layout constant `CELL_SIZE = 6` of `tile_grid.py`. -/
def CELL_SIZE : ℤ := 6

/-- Layout constant `BUILDING_OFFSET_CELLS = 2` of `tile_grid.py`. -/
def BUILDING_OFFSET_CELLS : ℤ := 2

/-- `TileGrid.grid_to_world`: `(grid_x * self.cell_size, grid_y * self.cell_size)`. -/
def grid_to_world (cell_size : ℚ) (grid_x grid_y : ℤ) : ℚ × ℚ :=
  ((grid_x : ℚ) * cell_size, (grid_y : ℚ) * cell_size)

/-- `TileGrid.world_to_grid`: `(int(x // self.cell_size), int(y // self.cell_size))`.
Python floor division `//` on exact values is `⌊x / c⌋`, and `int()` of the
already-floored float is that same integer. -/
def world_to_grid (cell_size : ℚ) (x y : ℚ) : ℤ × ℤ :=
  (⌊x / cell_size⌋, ⌊y / cell_size⌋)

/-- `TileGrid.can_place_building`: true iff the cell is unoccupied
(`grid_pos not in self.cells`). -/
def can_place_building (g : Cells) (grid_pos : Pos) : Bool :=
  (g grid_pos).isNone

/-- `TileGrid.can_place_road`: empty cells are allowed; an existing road is
allowed only when `abs(existing.depth - depth) == 1`; anything else blocks.
The `path` argument is kept because the source function takes it (unused). -/
def can_place_road (g : Cells) (grid_pos : Pos) (path : String) (depth : ℤ) : Bool :=
  match g grid_pos with
  | none => true
  | some existing =>
    if existing.type = TileType.road then
      decide (|existing.depth - depth| = 1)
    else
      false

/-- The cells of the `width × height` rectangle anchored at `grid_pos`,
as enumerated by the two nested `for dx in range(width): for dy in range(height)`
loops of `place_building` / `_region_is_free`. -/
def rectCells (grid_pos : Pos) (width height : ℕ) : List Pos :=
  ((List.range width).map (fun dx =>
    (List.range height).map (fun dy =>
      (grid_pos.1 + (dx : ℤ), grid_pos.2 + (dy : ℤ))))).flatten

/-- `TileGrid.place_building`: check every cell of the rectangle with
`can_place_building` first; only when all pass, write `building` content to
every cell and return `True`; otherwise return `False` with the grid
untouched. Returns the Python pair (success, mutated `self.cells`). -/
def place_building (g : Cells) (grid_pos : Pos) (path : String) (depth : ℤ)
    (width height : ℕ) : Bool × Cells :=
  if (rectCells grid_pos width height).all (fun c => can_place_building g c) then
    (true,
      (rectCells grid_pos width height).foldl
        (fun g' c => setCell g' c ⟨TileType.building, path, depth⟩) g)
  else
    (false, g)

/-- `TileGrid.place_road`: same check-then-commit pattern over an explicit
cell list, using `can_place_road`. -/
def place_road (g : Cells) (cells : List Pos) (path : String) (depth : ℤ) :
    Bool × Cells :=
  if cells.all (fun c => can_place_road g c path depth) then
    (true,
      cells.foldl (fun g' c => setCell g' c ⟨TileType.road, path, depth⟩) g)
  else
    (false, g)

/-- Python `range(a, b)` (step `1`): the integers `a, a+1, …, b-1`. -/
def pyRangeUp (a b : ℤ) : List ℤ :=
  (List.range (b - a).toNat).map (fun i : ℕ => a + (i : ℤ))

/-- Python `range(a, b, -1)`: the integers `a, a-1, …, b+1`. -/
def pyRangeDown (a b : ℤ) : List ℤ :=
  (List.range (a - b).toNat).map (fun i : ℕ => a - (i : ℤ))

/-- `TileGrid.create_l_path`: one axis-aligned segment from `start`
(inclusive) to the turning corner, then the second segment with the corner
skipped, exactly as the two Python `for … in range(…)` loops produce it. -/
def create_l_path (start stop : Pos) (horizontal_first : Bool) : List Pos :=
  let sx := start.1; let sy := start.2
  let ex := stop.1; let ey := stop.2
  if horizontal_first then
    let hseg := if sx ≤ ex then pyRangeUp sx (ex + 1) else pyRangeDown sx (ex - 1)
    let vseg := if sy ≤ ey then pyRangeUp (sy + 1) (ey + 1) else pyRangeDown (sy - 1) (ey - 1)
    hseg.map (fun x => ((x, sy) : Pos)) ++ vseg.map (fun y => ((ex, y) : Pos))
  else
    let vseg := if sy ≤ ey then pyRangeUp sy (ey + 1) else pyRangeDown sy (ey - 1)
    let hseg := if sx ≤ ex then pyRangeUp (sx + 1) (ex + 1) else pyRangeDown (sx - 1) (ex - 1)
    vseg.map (fun y => ((sx, y) : Pos)) ++ hseg.map (fun x => ((x, ey) : Pos))

/-- The full first segment of an L-path from coordinate `a` to `b`
inclusive, exactly as the first `for` loop of `create_l_path` builds it. -/
def segFull (a b : ℤ) : List ℤ :=
  if a ≤ b then pyRangeUp a (b + 1) else pyRangeDown a (b - 1)

/-- The second segment of an L-path from coordinate `a` to `b` with the
corner cell skipped, exactly as the second `for` loop of `create_l_path`
builds it. -/
def segTail (a b : ℤ) : List ℤ :=
  if a ≤ b then pyRangeUp (a + 1) (b + 1) else pyRangeDown (a - 1) (b - 1)

/-- `TileGrid._region_is_free`: the whole rectangle passes `can_place_building`. -/
def region_is_free (g : Cells) (top_left : Pos) (width height : ℕ) : Bool :=
  (rectCells top_left width height).all (fun c => can_place_building g c)

/-- The four expansion directions `[(1, 0), (-1, 0), (0, 1), (0, -1)]` of the
BFS in `find_free_region`, applied to a position. -/
def neighborsOf (p : Pos) : List Pos :=
  ([((1 : ℤ), (0 : ℤ)), (-1, 0), (0, 1), (0, -1)]).map
    (fun d => (p.1 + d.1, p.2 + d.2))

/-- The square of cells at Chebyshev distance at most `n` from `s`.  Every
position the BFS of `find_free_region` ever enqueues lies in
`searchBox start (r + 1)`: expansion happens only from cells that passed the
radius check.  This finite over-approximation carries the termination
argument. -/
def searchBox (s : Pos) (n : ℕ) : Finset Pos :=
  Finset.Icc (s.1 - (n : ℤ), s.2 - (n : ℤ)) (s.1 + (n : ℤ), s.2 + (n : ℤ))

theorem mem_searchBox {s p : Pos} {n : ℕ} :
    p ∈ searchBox s n ↔ |p.1 - s.1| ≤ (n : ℤ) ∧ |p.2 - s.2| ≤ (n : ℤ) := by
  rw [searchBox, Finset.mem_Icc, Prod.le_def, Prod.le_def, abs_le, abs_le]
  dsimp only
  omega

theorem start_mem_searchBox (s : Pos) (n : ℕ) : s ∈ searchBox s n := by
  rw [mem_searchBox]
  simp

theorem neighbors_mem_searchBox {s p : Pos} {r : ℕ}
    (hp : ¬((r : ℤ) < |p.1 - s.1| ∨ (r : ℤ) < |p.2 - s.2|)) {n : Pos}
    (hn : n ∈ neighborsOf p) : n ∈ searchBox s (r + 1) := by
  push_neg at hp
  rw [abs_le, abs_le] at hp
  simp only [neighborsOf, List.mem_map, List.mem_cons, List.mem_singleton,
    List.not_mem_nil, or_false] at hn
  rw [mem_searchBox, abs_le, abs_le]
  obtain ⟨d, hd, rfl⟩ := hn
  push_cast
  rcases hd with rfl | rfl | rfl | rfl <;> dsimp only <;> omega

theorem card_sdiff_insert_lt {B v : Finset Pos} {q : Pos}
    (hq : q ∈ B) (hv : q ∉ v) :
    (B \ insert q v).card < (B \ v).card := by
  apply Finset.card_lt_card
  refine (Finset.ssubset_iff_of_subset
    (Finset.sdiff_subset_sdiff (le_refl _) (Finset.subset_insert _ _))).2 ?_
  exact ⟨q, Finset.mem_sdiff.2 ⟨hq, hv⟩, by simp⟩

/-- The BFS loop of `TileGrid.find_free_region`: pop from the front of the
queue, skip already-visited cells, mark the cell visited, skip (without
expanding) cells beyond the search radius, return the first popped cell whose
`width × height` region is free, otherwise enqueue the four not-yet-visited
neighbors.  The `while queue:` loop of the source is embedded with an
explicit step budget (`fuel`); the outer `Option` distinguishes running out
of budget (`none`) from a genuine answer (`some result`), and
`bfsFuel_ne_none` below proves that the budget `bfs_steps r` is never
exhausted, i.e. that the source loop terminates. -/
def bfsFuel (g : Cells) (w h : ℕ) (s : Pos) (r : ℕ) :
    ℕ → List Pos → Finset Pos → Option (Option Pos)
  | 0, _, _ => none
  | _ + 1, [], _ => some none
  | fuel + 1, pos :: rest, visited =>
    if pos ∈ visited then
      bfsFuel g w h s r fuel rest visited
    else
      if (r : ℤ) < |pos.1 - s.1| ∨ (r : ℤ) < |pos.2 - s.2| then
        bfsFuel g w h s r fuel rest (insert pos visited)
      else
        if region_is_free g pos w h then
          some (some pos)
        else
          bfsFuel g w h s r fuel
            (rest ++ (neighborsOf pos).filter (fun n => n ∉ insert pos visited))
            (insert pos visited)

/-- Step budget sufficient for the whole BFS of `find_free_region`: every
iteration strictly decreases `queue.length + 5 * (searchBox s (r+1) \ visited).card`,
which starts at `1 + 5 * (2 * (r + 1) + 1) ^ 2`. -/
def bfs_steps (r : ℕ) : ℕ := 5 * (2 * (r + 1) + 1) ^ 2 + 2

/-- `TileGrid.find_free_region`: BFS outward from `start_pos` for a free
`width × height` region.  The `depth` parameter is part of the source
signature and, as in the source, unused by the body.  The `getD none`
collapses the (provably unreachable) out-of-budget case onto "not found". -/
def find_free_region (g : Cells) (start_pos : Pos) (width height : ℕ)
    (depth : ℤ) (max_search_radius : ℕ) : Option Pos :=
  (bfsFuel g width height start_pos max_search_radius (bfs_steps max_search_radius)
    [start_pos] ∅).getD none

theorem card_searchBox (s : Pos) (n : ℕ) :
    (searchBox s n).card = (2 * n + 1) ^ 2 := by
  rw [searchBox, Finset.card_Icc_prod]
  dsimp only
  rw [Int.card_Icc, Int.card_Icc]
  have h1 : (s.1 + (n : ℤ) + 1 - (s.1 - (n : ℤ))).toNat = 2 * n + 1 := by omega
  have h2 : (s.2 + (n : ℤ) + 1 - (s.2 - (n : ℤ))).toNat = 2 * n + 1 := by omega
  rw [h1, h2, sq]

theorem bfsFuel_ne_none (g : Cells) (w h : ℕ) (s : Pos) (r : ℕ) :
    ∀ (fuel : ℕ) (queue : List Pos) (visited : Finset Pos),
      (∀ p ∈ queue, p ∈ searchBox s (r + 1)) →
      queue.length + 5 * ((searchBox s (r + 1)) \ visited).card < fuel →
      bfsFuel g w h s r fuel queue visited ≠ none := by
  intro fuel
  induction fuel with
  | zero => intro queue visited _ hΦ; omega
  | succ fuel ih =>
    intro queue visited hq hΦ
    match queue with
    | [] => simp [bfsFuel]
    | pos :: rest =>
      have hpos : pos ∈ searchBox s (r + 1) := hq pos (by simp)
      have hrest : ∀ p ∈ rest, p ∈ searchBox s (r + 1) := fun p hp => hq p (by simp [hp])
      rw [bfsFuel]
      by_cases hv : pos ∈ visited
      · simp only [hv, if_true]
        exact ih rest visited hrest (by simp only [List.length_cons] at hΦ; omega)
      · simp only [hv, if_false]
        have hcard : ((searchBox s (r + 1)) \ insert pos visited).card + 1 ≤
            ((searchBox s (r + 1)) \ visited).card :=
          card_sdiff_insert_lt hpos hv
        by_cases hr : (r : ℤ) < |pos.1 - s.1| ∨ (r : ℤ) < |pos.2 - s.2|
        · simp only [hr, if_true]
          apply ih rest (insert pos visited) hrest
          simp only [List.length_cons] at hΦ
          omega
        · simp only [hr, if_false]
          by_cases hfree : region_is_free g pos w h
          · simp [hfree]
          · simp only [hfree, if_false, Bool.false_eq_true]
            apply ih
            · intro p hp
              rcases List.mem_append.1 hp with hp | hp
              · exact hrest p hp
              · exact neighbors_mem_searchBox hr (List.mem_of_mem_filter hp)
            · have hlen : ((neighborsOf pos).filter
                  (fun n => n ∉ insert pos visited)).length ≤ 4 := by
                calc ((neighborsOf pos).filter (fun n => n ∉ insert pos visited)).length
                    ≤ (neighborsOf pos).length := List.length_filter_le _ _
                  _ = 4 := by simp [neighborsOf]
              simp only [List.length_append, List.length_cons] at hΦ ⊢
              omega

theorem find_free_region_terminates (g : Cells) (s : Pos) (w h : ℕ)
    (d : ℤ) (r : ℕ) :
    bfsFuel g w h s r (bfs_steps r) [s] ∅ ≠ none := by
  apply bfsFuel_ne_none
  · intro p hp
    rw [List.mem_singleton] at hp
    rw [hp]
    exact start_mem_searchBox s (r + 1)
  · have hc : ((searchBox s (r + 1)) \ (∅ : Finset Pos)).card =
        (2 * (r + 1) + 1) ^ 2 := by
      rw [Finset.sdiff_empty, card_searchBox]
    rw [hc, bfs_steps]
    show 1 + 5 * (2 * (r + 1) + 1) ^ 2 < 5 * (2 * (r + 1) + 1) ^ 2 + 2
    generalize (2 * (r + 1) + 1) ^ 2 = A
    omega

/-! ### Path helpers

Python-string operations the engines use, implemented over `String.data`
so that the kernel can evaluate them.  `pathParts` embeds
`PurePosixPath(path).parts` (for the normalized relative POSIX paths the
input contract demands), `pyStartsWith` embeds `str.startswith`. -/

/-- Split a character list at every occurrence of `sep`. -/
def splitChars (sep : Char) : List Char → List Char → List (List Char)
  | [], acc => [acc.reverse]
  | c :: cs, acc =>
    if c = sep then acc.reverse :: splitChars sep cs []
    else splitChars sep cs (c :: acc)

/-- `PurePosixPath(path).parts` for a normalized relative POSIX path:
the nonempty `/`-separated components. -/
def pathParts (path : String) : List String :=
  ((splitChars '/' path.data []).map String.mk).filter (fun s => s ≠ "")

/-- Boolean list-prefix test on characters. -/
def charsPrefix : List Char → List Char → Bool
  | [], _ => true
  | _ :: _, [] => false
  | a :: as, b :: bs => a = b && charsPrefix as bs

/-- Python `s.startswith(pre)`. -/
def pyStartsWith (s pre : String) : Bool := charsPrefix pre.data s.data

/-- `_parent_folder` (identical in `tile_grid.py` and `geojson_layout.py`):
`"/".join(parts[:-1])`. -/
def parent_folder (path : String) : String :=
  String.intercalate "/" (pathParts path).dropLast

/-! ### geojson_layout module-level definitions -/

/-- Layout constant `STREET_WIDTH = 6` of `geojson_layout.py`. -/
def STREET_WIDTH : ℚ := 6

/-- Layout constant `BUILDING_GAP = 1` of `geojson_layout.py`. -/
def BUILDING_GAP : ℚ := 1

/-- Layout constant `BUILDING_DEPTH = 6` of `geojson_layout.py`. -/
def BUILDING_DEPTH : ℚ := 6

/-- Layout constant `MIN_BUILDING_WIDTH = 3` of `geojson_layout.py`. -/
def MIN_BUILDING_WIDTH : ℚ := 3

/-- Layout constant `MAX_BUILDING_WIDTH = 10` of `geojson_layout.py`. -/
def MAX_BUILDING_WIDTH : ℚ := 10

/-- Layout constant `SIDEWALK_WIDTH = 1` of `geojson_layout.py`. -/
def SIDEWALK_WIDTH : ℚ := 1

/-- Layout constant `STREET_BUILDING_CLEARANCE = 0` of `geojson_layout.py`. -/
def STREET_BUILDING_CLEARANCE : ℚ := 0

/-- `calculate_num_tiers` of `geojson_layout.py`: the if/elif ladder over
`lines_of_code`. -/
def calculate_num_tiers (lines_of_code : ℤ) : ℤ :=
  if lines_of_code ≤ 50 then 1
  else if lines_of_code ≤ 100 then 2
  else if lines_of_code ≤ 200 then 3
  else if lines_of_code ≤ 400 then 4
  else if lines_of_code ≤ 700 then 5
  else if lines_of_code ≤ 1000 then 6
  else if lines_of_code ≤ 1500 then 7
  else if lines_of_code ≤ 2500 then 8
  else if lines_of_code ≤ 4000 then 9
  else 10

/-- `calculate_tier_widths` of `geojson_layout.py`: splits `line_lengths`
into `num_tiers` chunks of `len // num_tiers` lines (the last chunk taking
every remaining line), averages each chunk (plain mean; `0` for an empty
chunk), scales by `/ 3` and clamps into
`[MIN_BUILDING_WIDTH, MAX_BUILDING_WIDTH]`; an empty input or a
non-positive tier count yields `[MIN_BUILDING_WIDTH]`. -/
def calculate_tier_widths (line_lengths : List ℤ) (num_tiers : ℤ) : List ℚ :=
  if line_lengths.isEmpty ∨ num_tiers ≤ 0 then [MIN_BUILDING_WIDTH]
  else
    let total := line_lengths.length
    let chunk_size := total / num_tiers.toNat
    (List.range num_tiers.toNat).map (fun i =>
      let start_idx := i * chunk_size
      let end_idx := if i < num_tiers.toNat - 1 then (i + 1) * chunk_size else total
      let chunk := (line_lengths.drop start_idx).take (end_idx - start_idx)
      let avg_length : ℚ :=
        if chunk.isEmpty then 0
        else (chunk.map (fun v => (v : ℚ))).sum / (chunk.length : ℚ)
      min (max (avg_length / 3) MIN_BUILDING_WIDTH) MAX_BUILDING_WIDTH)

/-- Insertion of one integer into a sorted list (ascending). -/
def insertSorted (x : ℤ) : List ℤ → List ℤ
  | [] => [x]
  | y :: ys => if x ≤ y then x :: y :: ys else y :: insertSorted x ys

/-- Python `sorted` on a list of integers (insertion sort). -/
def sortInts (l : List ℤ) : List ℤ := l.foldr insertSorted []

/-- Modelled from the spec: `_trimmed_average`, which is missing from the
snapshot of `geojson_layout.py` although the module's own test file imports
it from there; following the spec (and the behavior those tests assert):
empty input returns the fixed default `40.0`; lists of at most four values
use the plain mean; otherwise the list is sorted and the top and bottom 10%
(at least one element each side) are dropped before averaging. -/
def trimmed_average (values : List ℤ) : ℚ :=
  if values.isEmpty then 40
  else if values.length ≤ 4 then
    (values.map (fun v => (v : ℚ))).sum / (values.length : ℚ)
  else
    let sorted := sortInts values
    let trim := max 1 (values.length / 10)
    let rest := (sorted.drop trim).take (sorted.length - 2 * trim)
    (rest.map (fun v => (v : ℚ))).sum / (rest.length : ℚ)

/-- Modelled from the spec: `interpolate_height`, which `tile_grid.py`
imports from `geojson_layout` but which is missing from the snapshot;
following the spec (§4.4): piecewise-linear interpolation across the fixed
breakpoints 3 @ 0, 10 @ 50, 25 @ 100, 75 @ 300, 150 @ 500, 300 @ 1000,
500 @ 3000, capped at 828 for 5000 lines and beyond. -/
def interpSegments : List (ℤ × ℚ) → ℤ → ℚ
  | [], _ => 828
  | [(_, y)], _ => y
  | (x0, y0) :: (x1, y1) :: rest, loc =>
    if loc ≤ x1 then y0 + (y1 - y0) * ((loc - x0 : ℤ) : ℚ) / ((x1 - x0 : ℤ) : ℚ)
    else interpSegments ((x1, y1) :: rest) loc

/-- Modelled from the spec: total building height for a line count (see
`interpSegments`). -/
def interpolate_height (lines_of_code : ℤ) : ℚ :=
  if 5000 ≤ lines_of_code then 828
  else interpSegments
    [(0, 3), (50, 10), (100, 25), (300, 75), (500, 150),
     (1000, 300), (3000, 500), (5000, 828)] lines_of_code

/-- `BoundingBox` of `geojson_layout.py`. -/
structure BoundingBox where
  min_x : ℚ
  min_y : ℚ
  max_x : ℚ
  max_y : ℚ
deriving DecidableEq

/-- `BoundingBox.overlaps`: boxes overlap unless one lies strictly beyond
the other (up to `tolerance`) on some axis. -/
def BoundingBox.overlaps (b other : BoundingBox) (tolerance : ℚ) : Bool :=
  !(decide (b.max_x < other.min_x - tolerance) ||
    decide (other.max_x < b.min_x - tolerance) ||
    decide (b.max_y < other.min_y - tolerance) ||
    decide (other.max_y < b.min_y - tolerance))

/-! ### Feature records (geojson_models.py and the engines' constructor calls) -/

/-- `GeoCoord` of `geojson_models.py`. -/
structure GeoCoord where
  x : ℚ
  y : ℚ
deriving DecidableEq

/-- `StreetFeature` of `geojson_models.py`.  The Python fields `start` and
`end` are called `startCoord`/`endCoord` here (`end` is reserved in Lean). -/
structure StreetFeature where
  path : String
  name : String
  depth : ℤ
  file_count : ℤ
  startCoord : GeoCoord
  endCoord : GeoCoord
  descendant_count : ℤ
deriving DecidableEq

/-- `StreetFeature.road_class`: traffic class from the descendant count. -/
def StreetFeature.road_class (s : StreetFeature) : String :=
  if 50 ≤ s.descendant_count then "primary"
  else if 10 ≤ s.descendant_count then "secondary"
  else "tertiary"

/-- `GrassFeature` of `geojson_models.py`. -/
structure GrassFeature where
  bounds : List GeoCoord
deriving DecidableEq

/-- Building feature exactly as `GeoJSONLayoutEngine` constructs it
(the tier-less `BuildingFeature` of `geojson_models.py`). -/
structure GeoBuildingFeature where
  path : String
  name : String
  street : String
  language : String
  lines_of_code : ℤ
  avg_line_length : ℚ
  created_at : String
  last_modified : String
  corners : List GeoCoord
deriving DecidableEq

/-- Building feature exactly as `TileGridLayoutEngine._place_files_along_street`
constructs it.  Modelled from the spec for the fields beyond
`GeoBuildingFeature`: the snapshot's `geojson_models.py` lacks the
`tier`/`base_height`/`top_height`/`tier_width` fields that the engine
passes, so the record here lists exactly the keyword arguments of the
constructor call (spec §3 `BuildingFeature`). -/
structure TileBuildingFeature where
  path : String
  name : String
  street : String
  language : String
  lines_of_code : ℤ
  avg_line_length : ℚ
  created_at : String
  last_modified : String
  corners : List GeoCoord
  tier : ℕ
  base_height : ℚ
  top_height : ℚ
  tier_width : ℚ
deriving DecidableEq

/-- `SidewalkFeature` as `GeoJSONLayoutEngine._create_sidewalks` constructs
it.  Modelled from the spec for the `corners` field: the snapshot's
`geojson_models.py` has an older start/end variant, while the engine passes
`corners`; the record lists the constructor call's keyword arguments. -/
structure SidewalkFeature where
  street_path : String
  side : String
  corners : List GeoCoord
deriving DecidableEq

/-- `FootpathFeature` of `geojson_models.py`. -/
structure FootpathFeature where
  building_path : String
  points : List GeoCoord
deriving DecidableEq

/-- `FileMetrics` of `models.py`, extended with the `line_lengths` field.
Modelled from the spec (§3) for that one field: the snapshot's `models.py`
omits `line_lengths`, but the input contract, the tests and
`tile_grid.py` (via `getattr(metrics, "line_lengths", [])`) all use it.
The two `datetime` fields are embedded as their `isoformat()` strings,
which is the only way the engines consume them. -/
structure FileMetrics where
  path : String
  lines_of_code : ℤ
  avg_line_length : ℚ
  language : String
  created_at : String
  last_modified : String
  line_lengths : List ℤ
deriving DecidableEq

/-- The input mapping `dict[str, FileMetrics]`, embedded as its
insertion-ordered item list. -/
abbrev MetricsMap : Type := List (String × FileMetrics)

/-- The nested folder-tree `dict[str, Any]` built by `_build_tree`,
embedded as an insertion-ordered rose tree. -/
inductive FolderTree where
| node : List (String × FolderTree) → FolderTree

/-- Children of a tree node (`tree.keys()` iteration with subtrees). -/
def FolderTree.children : FolderTree → List (String × FolderTree)
  | FolderTree.node cs => cs

/-- One `current = current.setdefault(part, {})` walk of `_build_tree`:
descend along `parts`, creating missing children at the end, preserving
first-seen order (an existing child is updated in place, a new one is
appended). -/
def treeInsert : FolderTree → List String → FolderTree
  | t, [] => t
  | FolderTree.node cs, part :: rest =>
    if cs.any (fun kt => kt.1 = part) then
      FolderTree.node (cs.map (fun kt =>
        if kt.1 = part then (kt.1, treeInsert kt.2 rest) else kt))
    else
      FolderTree.node (cs ++ [(part, treeInsert (FolderTree.node []) rest)])

/-- `_build_tree` (identical in both engines): fold every path's folder
components into the tree. -/
def build_tree (file_metrics : MetricsMap) : FolderTree :=
  file_metrics.foldl
    (fun t pm => treeInsert t (pathParts pm.1).dropLast)
    (FolderTree.node [])

/-- `_count_descendants` (identical in both engines). -/
def count_descendants (folder_path : String) (file_metrics : MetricsMap) : ℤ :=
  let pre := if folder_path = "" then "" else folder_path ++ "/"
  file_metrics.foldl
    (fun count pm => if pre = "" ∨ pyStartsWith pm.1 pre then count + 1 else count)
    0

/-! ### TileGridLayoutEngine -/

/-- Mutable state of a `TileGridLayoutEngine` (its dataclass fields, with
the owned `TileGrid` inlined as `cell_size` + `cells`). -/
structure TileEngineState where
  cell_size : ℚ
  cells : Cells
  streets : List StreetFeature
  buildings : List TileBuildingFeature
  grass : Option GrassFeature
  root_name : String

/-- Dataclass defaults of `TileGridLayoutEngine` (fresh grid, empty
accumulators, root name "root"). -/
def tileEngineInit : TileEngineState :=
  { cell_size := 6
    cells := emptyCells
    streets := []
    buildings := []
    grass := none
    root_name := "root" }

/-- `TileGridLayoutEngine._place_files_along_street`: alternate buildings on
the two sides of the street, advancing every pair; reserve one `1 × 1` grid
cell per file (the boolean result of `place_building` is discarded, exactly
as in the source) and emit one `BuildingFeature` per tier. -/
def place_files_along_street (st : TileEngineState) (files : MetricsMap)
    (street_path : String) (start_cell : Pos) (direction : String)
    (depth : ℤ) : TileEngineState :=
  files.enum.foldl
    (fun st ipm =>
      let i := ipm.1
      let path := ipm.2.1
      let metrics := ipm.2.2
      let side : ℤ := if i % 2 = 0 then 1 else -1
      let position_along : ℤ := ((i / 2 : ℕ) : ℤ)
      let bpos : Pos :=
        if direction = "horizontal" then
          (start_cell.1 + position_along * 2,
           start_cell.2 + side * BUILDING_OFFSET_CELLS)
        else
          (start_cell.1 + side * BUILDING_OFFSET_CELLS,
           start_cell.2 + position_along * 2)
      let num_tiers := calculate_num_tiers metrics.lines_of_code
      let line_lengths := metrics.line_lengths
      let tier_widths := calculate_tier_widths line_lengths num_tiers
      let total_height := interpolate_height metrics.lines_of_code
      let tier_height := total_height / (num_tiers : ℚ)
      let cells' := (place_building st.cells bpos path depth 1 1).2
      let world := grid_to_world st.cell_size bpos.1 bpos.2
      let newTiers := (List.range num_tiers.toNat).map (fun tier_idx =>
        let tier_width := tier_widths.getD tier_idx (CELL_SIZE : ℚ)
        let half_size := tier_width / 2
        let center_x := world.1 + (CELL_SIZE : ℚ) / 2
        let center_y := world.2 + (CELL_SIZE : ℚ) / 2
        let corners : List GeoCoord :=
          [⟨center_x - half_size, center_y - half_size⟩,
           ⟨center_x + half_size, center_y - half_size⟩,
           ⟨center_x + half_size, center_y + half_size⟩,
           ⟨center_x - half_size, center_y + half_size⟩]
        let base_height := (tier_idx : ℚ) * tier_height
        let top_height := ((tier_idx : ℚ) + 1) * tier_height
        ({ path := path
           name := (pathParts path).getLastD ""
           street := street_path
           language := metrics.language
           lines_of_code := metrics.lines_of_code
           avg_line_length := metrics.avg_line_length
           created_at := metrics.created_at
           last_modified := metrics.last_modified
           corners := corners
           tier := tier_idx
           base_height := base_height
           top_height := top_height
           tier_width := tier_width } : TileBuildingFeature))
      { st with cells := cells', buildings := st.buildings ++ newTiers })
    st

/-- `TileGridLayoutEngine._place_folder`: BFS for a free
`width_needed × 4` region three cells off the parent branch cell, lay an
L-shaped connector road and the folder street (both depth-registered),
emit the street feature, place the folder's files, and loop over the
subfolders (branch points every four cells on alternating sides),
recursing one level deeper into each.  The recursion of the source runs on
the folder tree, whose depth is bounded by `treeDepthFuel` of the input;
the explicit `fuel` argument carries that structural bound (one unit per
nesting level) so the recursion is primitive; the `fuel = 0` branch is
unreachable for the fuel every caller supplies. -/
def place_folder_fuel : ℕ → TileEngineState → FolderTree → String →
    MetricsMap → ℤ → Pos → ℤ → TileEngineState
  | 0, st, _, _, _, _, _, _ => st
  | fuel + 1, st, tree, folder_path, file_metrics, depth, parent_branch_cell,
      branch_direction =>
    let folder_files := file_metrics.filter (fun pm => parent_folder pm.1 = folder_path)
    let num_files := folder_files.length
    let num_subfolders := tree.children.length
    let width_needed : ℕ := max 4 (max ((num_files + 1) / 2 * 2) (num_subfolders * 4))
    let height_needed : ℕ := 4
    let search_start : Pos :=
      (parent_branch_cell.1, parent_branch_cell.2 + branch_direction * 3)
    match find_free_region st.cells search_start width_needed height_needed depth 100 with
    | none => st
    | some p =>
      let px := p.1
      let py := p.2
      let connector_cells :=
        create_l_path parent_branch_cell (px, py) (decide (branch_direction = 0))
      let cells1 := (place_road st.cells connector_cells ("root>" ++ folder_path) depth).2
      let street_cells := (List.range width_needed).map
        (fun i => ((px + (i : ℤ), py) : Pos))
      let cells2 := (place_road cells1 street_cells folder_path depth).2
      let folder_name := (pathParts folder_path).getLastD ""
      let startC : GeoCoord := ⟨((px * CELL_SIZE : ℤ) : ℚ), ((py * CELL_SIZE : ℤ) : ℚ)⟩
      let endC : GeoCoord :=
        ⟨(((px + (width_needed : ℤ)) * CELL_SIZE : ℤ) : ℚ), ((py * CELL_SIZE : ℤ) : ℚ)⟩
      let newStreet : StreetFeature :=
        { path := folder_path
          name := folder_name
          depth := depth
          file_count := (folder_files.length : ℤ)
          startCoord := startC
          endCoord := endC
          descendant_count := count_descendants folder_path file_metrics }
      let st1 : TileEngineState :=
        { st with
          cells := cells2
          streets := st.streets ++ [newStreet] }
      let st2 := place_files_along_street st1 folder_files folder_path (px, py)
        "horizontal" depth
      (tree.children.foldl
        (fun acc kt =>
          (place_folder_fuel fuel acc.1 kt.2 (folder_path ++ "/" ++ kt.1)
            file_metrics (depth + 1) (acc.2.1, py) acc.2.2,
           acc.2.1 + 4, -acc.2.2))
        ((st2, px + 2, 1) : TileEngineState × ℤ × ℤ)).1

/-- Upper bound on the folder-tree depth of the input: one unit of fuel per
path component over all paths, plus one.  `_place_folder` recurses one
level per folder nesting level, which this dominates. -/
def treeDepthFuel (file_metrics : MetricsMap) : ℕ :=
  1 + file_metrics.foldl (fun acc pm => acc + (pathParts pm.1).length) 0

/-- `TileGridLayoutEngine._layout_main_street`: lay the main street of
`max(10, folders*4 + root_files*2)` cells at row `0`, emit its feature,
place root files along it, then branch every top-level folder off it
(the `for folder_name in tree.keys():` loop, threading `branch_x += 4`
and `side *= -1`). -/
def layout_main_street (st : TileEngineState) (tree : FolderTree)
    (file_metrics : MetricsMap) (root_files : MetricsMap) : TileEngineState :=
  let num_folders := tree.children.length
  let num_root_files := root_files.length
  let street_length_cells : ℕ := max 10 (num_folders * 4 + num_root_files * 2)
  let main_street_cells := (List.range street_length_cells).map
    (fun x => (((x : ℤ), (0 : ℤ)) : Pos))
  let cells1 := (place_road st.cells main_street_cells "root" 0).2
  let startC : GeoCoord := ⟨0, 0⟩
  let endC : GeoCoord := ⟨(((street_length_cells : ℤ) * CELL_SIZE : ℤ) : ℚ), 0⟩
  let mainStreet : StreetFeature :=
    { path := "root"
      name := st.root_name
      depth := 0
      file_count := (root_files.length : ℤ)
      startCoord := startC
      endCoord := endC
      descendant_count := (file_metrics.length : ℤ) }
  let st1 : TileEngineState :=
    { st with
      cells := cells1
      streets := st.streets ++ [mainStreet] }
  let st2 := place_files_along_street st1 root_files "root" (0, 0) "horizontal" 0
  let branch_x : ℤ := ((num_root_files + 1) / 2 * 2 : ℕ) + 2
  (tree.children.foldl
    (fun acc kt =>
      (place_folder_fuel (treeDepthFuel file_metrics) acc.1 kt.2 kt.1
        file_metrics 1 (acc.2.1, 0) acc.2.2,
       acc.2.1 + 4, -acc.2.2))
    ((st2, branch_x, 1) : TileEngineState × ℤ × ℤ)).1

/-- Minimum of a list of rationals, `none` for the empty list (embeds the
`float("inf")` running-minimum idiom: the sentinel survives exactly when
no value was folded in). -/
def qListMin (l : List ℚ) : Option ℚ :=
  l.foldl (fun acc v => match acc with
    | none => some v
    | some a => some (min a v)) none

/-- Maximum of a list of rationals, `none` for the empty list (embeds the
`float("-inf")` running-maximum idiom). -/
def qListMax (l : List ℚ) : Option ℚ :=
  l.foldl (fun acc v => match acc with
    | none => some v
    | some a => some (max a v)) none

/-- All coordinates `_create_grass_area` scans: street endpoints and
building corners. -/
def tileGrassCoords (st : TileEngineState) : List GeoCoord :=
  (st.streets.map (fun s => [s.startCoord, s.endCoord])).flatten ++
  (st.buildings.map (fun b => b.corners)).flatten

/-- `TileGridLayoutEngine._create_grass_area`: for a non-empty city, the
bounding rectangle of every street endpoint and building corner, expanded
by a margin of 10. -/
def create_grass_area (st : TileEngineState) : TileEngineState :=
  if st.streets.isEmpty ∧ st.buildings.isEmpty then st
  else
    match qListMin ((tileGrassCoords st).map GeoCoord.x),
        qListMin ((tileGrassCoords st).map GeoCoord.y),
        qListMax ((tileGrassCoords st).map GeoCoord.x),
        qListMax ((tileGrassCoords st).map GeoCoord.y) with
    | some min_x, some min_y, some max_x, some max_y =>
      { st with grass := some ⟨[⟨min_x - 10, min_y - 10⟩, ⟨max_x + 10, min_y - 10⟩,
          ⟨max_x + 10, max_y + 10⟩, ⟨min_x - 10, max_y + 10⟩]⟩ }
    | _, _, _, _ => st

/-- One feature of the tile engine's exported collection (the dicts built
by the `to_geojson` methods, embedded as tagged records). -/
inductive TileFeature where
| grassF : GrassFeature → TileFeature
| streetF : StreetFeature → TileFeature
| buildingF : TileBuildingFeature → TileFeature
deriving DecidableEq

/-- `TileGridLayoutEngine._to_geojson`: grass first (when present), then
all streets, then all buildings. -/
def tile_to_geojson (st : TileEngineState) : List TileFeature :=
  (match st.grass with
   | some gr => [TileFeature.grassF gr]
   | none => []) ++
  st.streets.map TileFeature.streetF ++
  st.buildings.map TileFeature.buildingF

/-- `TileGridLayoutEngine.layout`: reset every engine field, build the
folder tree and the root file list, lay out the main street, create the
grass area and export.  Returns the exported feature list together with
the engine state left behind (the source mutates `self`); the `prev`
argument is that prior state, which the reset makes irrelevant. -/
def tileLayout (prev : TileEngineState) (file_metrics : MetricsMap)
    (root_name : String) : List TileFeature × TileEngineState :=
  let st0 : TileEngineState :=
    { cell_size := (CELL_SIZE : ℚ)
      cells := emptyCells
      streets := []
      buildings := []
      grass := none
      root_name := root_name }
  let tree := build_tree file_metrics
  let root_files := file_metrics.filter (fun pm => parent_folder pm.1 = "")
  let st1 := layout_main_street st0 tree file_metrics root_files
  let st2 := create_grass_area st1
  (tile_to_geojson st2, st2)

/-! ### GeoJSONLayoutEngine -/

/-- Mutable state of a `GeoJSONLayoutEngine` (its dataclass fields).  The
Python set `_street_set` is embedded as the list of keys added to it
(only membership is ever read). -/
structure GeoEngineState where
  streets : List StreetFeature
  buildings : List GeoBuildingFeature
  sidewalks : List SidewalkFeature
  footpaths : List FootpathFeature
  grass : Option GrassFeature
  occupied_boxes : List BoundingBox
  street_set : List String
  root_name : String

/-- Dataclass defaults of `GeoJSONLayoutEngine`. -/
def geoEngineInit : GeoEngineState :=
  { streets := []
    buildings := []
    sidewalks := []
    footpaths := []
    grass := none
    occupied_boxes := []
    street_set := []
    root_name := "root" }

/-- `GeoJSONLayoutEngine._get_perpendicular_offset`: distance from a parent
street's center line to a child street's center line. -/
def get_perpendicular_offset : ℚ :=
  STREET_WIDTH / 2 + SIDEWALK_WIDTH + BUILDING_DEPTH + BUILDING_GAP +
    STREET_BUILDING_CLEARANCE + BUILDING_DEPTH + SIDEWALK_WIDTH + STREET_WIDTH / 2

/-- `GeoJSONLayoutEngine._calculate_folder_space`: the pure bottom-up sizing
pass.  The recursion runs on the folder tree; `fuel` is the structural
bound on its depth (see `treeDepthFuel`), and the `fuel = 0` branch is
unreachable for the fuel every caller supplies. -/
def calculate_folder_space_fuel : ℕ → FolderTree → String → MetricsMap → ℚ
  | 0, _, _, _ => 0
  | fuel + 1, tree, folder_path, file_metrics =>
    let folder_files := file_metrics.filter (fun pm => parent_folder pm.1 = folder_path)
    let num_buildings := folder_files.length
    let buildings_per_side := (num_buildings + 1) / 2
    let building_space : ℚ := (buildings_per_side : ℚ) * (MAX_BUILDING_WIDTH + BUILDING_GAP)
    let subfolder_space : ℚ := tree.children.foldl
      (fun acc kt =>
        acc + calculate_folder_space_fuel fuel kt.2 (folder_path ++ "/" ++ kt.1)
          file_metrics)
      0
    let min_space := get_perpendicular_offset * 2
    max (max (max building_space subfolder_space) min_space) 15

/-- `GeoJSONLayoutEngine._register_street_box`. -/
def register_street_box (st : GeoEngineState) (start stop : GeoCoord)
    (direction : String) : GeoEngineState :=
  let half_width := STREET_WIDTH / 2
  let box : BoundingBox :=
    if direction = "horizontal" then
      { min_x := min start.x stop.x - BUILDING_GAP
        min_y := min start.y stop.y - half_width
        max_x := max start.x stop.x + BUILDING_GAP
        max_y := max start.y stop.y + half_width }
    else
      { min_x := min start.x stop.x - half_width
        min_y := min start.y stop.y - BUILDING_GAP
        max_x := max start.x stop.x + half_width
        max_y := max start.y stop.y + BUILDING_GAP }
  { st with occupied_boxes := st.occupied_boxes ++ [box] }

/-- `GeoJSONLayoutEngine._create_sidewalks`: two sidewalk polygons flanking
a street, optionally extended back toward the connector start. -/
def create_sidewalks (st : GeoEngineState) (street_path : String)
    (start stop : GeoCoord) (direction : String) (extend_to : Option GeoCoord) :
    GeoEngineState :=
  let inner_offset := STREET_WIDTH / 2
  let outer_offset := STREET_WIDTH / 2 + SIDEWALK_WIDTH
  let actual_start : GeoCoord :=
    match extend_to with
    | none => start
    | some ext =>
      if direction = "horizontal" then ⟨ext.x, start.y⟩ else ⟨start.x, ext.y⟩
  let left_corners : List GeoCoord :=
    if direction = "horizontal" then
      [⟨actual_start.x, actual_start.y + inner_offset⟩,
       ⟨stop.x, stop.y + inner_offset⟩,
       ⟨stop.x, stop.y + outer_offset⟩,
       ⟨actual_start.x, actual_start.y + outer_offset⟩]
    else
      [⟨actual_start.x + inner_offset, actual_start.y⟩,
       ⟨stop.x + inner_offset, stop.y⟩,
       ⟨stop.x + outer_offset, stop.y⟩,
       ⟨actual_start.x + outer_offset, actual_start.y⟩]
  let right_corners : List GeoCoord :=
    if direction = "horizontal" then
      [⟨actual_start.x, actual_start.y - inner_offset⟩,
       ⟨stop.x, stop.y - inner_offset⟩,
       ⟨stop.x, stop.y - outer_offset⟩,
       ⟨actual_start.x, actual_start.y - outer_offset⟩]
    else
      [⟨actual_start.x - inner_offset, actual_start.y⟩,
       ⟨stop.x - inner_offset, stop.y⟩,
       ⟨stop.x - outer_offset, stop.y⟩,
       ⟨actual_start.x - outer_offset, actual_start.y⟩]
  { st with sidewalks := st.sidewalks ++
      [{ street_path := street_path, side := "left", corners := left_corners },
       { street_path := street_path, side := "right", corners := right_corners }] }

/-- `GeoJSONLayoutEngine._create_footpath`: cubic-bezier footpath from a
building edge to the sidewalk.  The Python float literals `0.5` and `0.3`
are embedded as the exact rationals they denote in the source text. -/
def create_footpath (st : GeoEngineState) (building_path : String)
    (building_edge sidewalk_point : GeoCoord) (side : ℤ) (direction : String) :
    GeoEngineState :=
  let s : ℚ := (side : ℚ)
  let ctrl : ℚ × ℚ × ℚ × ℚ :=
    if direction = "horizontal" then
      let mid_y := (building_edge.y + sidewalk_point.y) / 2
      (building_edge.x - s * (1 / 2),
       building_edge.y - s * (building_edge.y - mid_y) * (3 / 10),
       sidewalk_point.x + s * (1 / 2),
       sidewalk_point.y + s * (mid_y - sidewalk_point.y) * (3 / 10))
    else
      let mid_x := (building_edge.x + sidewalk_point.x) / 2
      (building_edge.x - s * (building_edge.x - mid_x) * (3 / 10),
       building_edge.y - s * (1 / 2),
       sidewalk_point.x + s * (mid_x - sidewalk_point.x) * (3 / 10),
       sidewalk_point.y + s * (1 / 2))
  let ctrl1_x := ctrl.1
  let ctrl1_y := ctrl.2.1
  let ctrl2_x := ctrl.2.2.1
  let ctrl2_y := ctrl.2.2.2
  let num_points : ℕ := 8
  let points : List GeoCoord := (List.range (num_points + 1)).map (fun t =>
    let t_norm : ℚ := (t : ℚ) / (num_points : ℚ)
    let t2 := t_norm * t_norm
    let t3 := t2 * t_norm
    let mt := 1 - t_norm
    let mt2 := mt * mt
    let mt3 := mt2 * mt
    ⟨mt3 * building_edge.x + 3 * mt2 * t_norm * ctrl1_x + 3 * mt * t2 * ctrl2_x +
        t3 * sidewalk_point.x,
     mt3 * building_edge.y + 3 * mt2 * t_norm * ctrl1_y + 3 * mt * t2 * ctrl2_y +
        t3 * sidewalk_point.y⟩)
  { st with footpaths := st.footpaths ++
      [{ building_path := building_path, points := points }] }

/-- `GeoJSONLayoutEngine._place_buildings_along_street`: alternate buildings
on the two sides of the street, register their collision boxes, emit the
features and a footpath per building; returns the final `current_offset`
(ignored by both call sites, as in the source). -/
def place_buildings_along_street (st : GeoEngineState) (files : MetricsMap)
    (street_path : String) (street_start : GeoCoord) (direction : String)
    (start_offset : ℚ) : GeoEngineState × ℚ :=
  files.enum.foldl
    (fun acc ipm =>
      let st := acc.1
      let current_offset := acc.2
      let i := ipm.1
      let path := ipm.2.1
      let metrics := ipm.2.2
      let side : ℤ := if i % 2 = 0 then 1 else -1
      let position_along : ℚ := ((i / 2 : ℕ) : ℚ) * (MAX_BUILDING_WIDTH + BUILDING_GAP)
      let width := min (max (metrics.avg_line_length / 3) MIN_BUILDING_WIDTH)
        MAX_BUILDING_WIDTH
      let building_offset := STREET_WIDTH / 2 + SIDEWALK_WIDTH +
        STREET_BUILDING_CLEARANCE + BUILDING_DEPTH / 2
      let hor := direction = "horizontal"
      let x : ℚ := if hor then street_start.x + position_along
        else street_start.x + (side : ℚ) * building_offset
      let y : ℚ := if hor then street_start.y + (side : ℚ) * building_offset
        else street_start.y + position_along
      let corners : List GeoCoord :=
        if hor then
          [⟨x, y - BUILDING_DEPTH / 2⟩, ⟨x + width, y - BUILDING_DEPTH / 2⟩,
           ⟨x + width, y + BUILDING_DEPTH / 2⟩, ⟨x, y + BUILDING_DEPTH / 2⟩]
        else
          [⟨x - BUILDING_DEPTH / 2, y⟩, ⟨x + BUILDING_DEPTH / 2, y⟩,
           ⟨x + BUILDING_DEPTH / 2, y + width⟩, ⟨x - BUILDING_DEPTH / 2, y + width⟩]
      let box : BoundingBox :=
        if hor then
          { min_x := x, min_y := y - BUILDING_DEPTH / 2, max_x := x + width,
            max_y := y + BUILDING_DEPTH / 2 }
        else
          { min_x := x - BUILDING_DEPTH / 2, min_y := y,
            max_x := x + BUILDING_DEPTH / 2, max_y := y + width }
      let bf : GeoBuildingFeature :=
        { path := path
          name := (pathParts path).getLastD ""
          street := street_path
          language := metrics.language
          lines_of_code := metrics.lines_of_code
          avg_line_length := metrics.avg_line_length
          created_at := metrics.created_at
          last_modified := metrics.last_modified
          corners := corners }
      let st1 := { st with
        occupied_boxes := st.occupied_boxes ++ [box]
        buildings := st.buildings ++ [bf] }
      let sidewalk_outer_offset := STREET_WIDTH / 2 + SIDEWALK_WIDTH
      let building_edge_offset := STREET_WIDTH / 2 + SIDEWALK_WIDTH +
        STREET_BUILDING_CLEARANCE
      let building_edge : GeoCoord :=
        if hor then ⟨x + width / 2, street_start.y + (side : ℚ) * building_edge_offset⟩
        else ⟨street_start.x + (side : ℚ) * building_edge_offset, y + width / 2⟩
      let sidewalk_point : GeoCoord :=
        if hor then ⟨x + width / 2, street_start.y + (side : ℚ) * sidewalk_outer_offset⟩
        else ⟨street_start.x + (side : ℚ) * sidewalk_outer_offset, y + width / 2⟩
      let st2 := create_footpath st1 path building_edge sidewalk_point side direction
      (st2, max current_offset (position_along + width)))
    (st, start_offset)

/-- `GeoJSONLayoutEngine._create_connector_street`: a connector street from
the branch point on the parent street to the child street origin, created
at most once per `parent>child` key. -/
def create_connector_street (st : GeoEngineState) (parent_path child_path : String)
    (start stop : GeoCoord) (file_metrics : MetricsMap) : GeoEngineState :=
  let descendant_count := count_descendants child_path file_metrics
  let connector_key := parent_path ++ ">" ++ child_path
  if connector_key ∈ st.street_set then st
  else
    let st1 := { st with
      street_set := connector_key :: st.street_set
      streets := st.streets ++
        [{ path := connector_key
           name := ""
           depth := 1
           file_count := 0
           startCoord := start
           endCoord := stop
           descendant_count := descendant_count }] }
    let direction :=
      if |stop.x - start.x| > |stop.y - start.y| then "horizontal" else "vertical"
    register_street_box st1 start stop direction

/-- `GeoJSONLayoutEngine._layout_folder`: a folder street with buildings on
both sides and subfolders branching perpendicular, alternating sides.  The
recursion runs on the folder tree with the structural depth bound `fuel`
(see `treeDepthFuel`; the `fuel = 0` branch is unreachable for the fuel
every caller supplies).  Returns the `LayoutResult` pair
`(street_length, total_width)` (ignored by every call site, as in the
source). -/
def layout_folder_fuel : ℕ → GeoEngineState → FolderTree → String → MetricsMap →
    ℤ → GeoCoord → String → Option GeoCoord → GeoEngineState × (ℚ × ℚ)
  | 0, st, _, _, _, _, _, _, _ => (st, (0, 0))
  | fuel + 1, st, tree, folder_path, file_metrics, depth, origin, direction,
      connector_start =>
    let folder_files := file_metrics.filter (fun pm => parent_folder pm.1 = folder_path)
    let num_buildings := folder_files.length
    let buildings_per_side := (num_buildings + 1) / 2
    let building_space : ℚ := (buildings_per_side : ℚ) * (MAX_BUILDING_WIDTH + BUILDING_GAP)
    let subfolder_spaces : List (String × FolderTree × ℚ) := tree.children.map
      (fun kt => (kt.1, kt.2,
        calculate_folder_space_fuel fuel kt.2 (folder_path ++ "/" ++ kt.1)
          file_metrics))
    let furthest_branch : ℚ := (subfolder_spaces.foldl
      (fun acc ns =>
        (max acc.1 (acc.2 + ns.2.2 / 2), acc.2 + ns.2.2 + BUILDING_GAP))
      ((0 : ℚ), building_space + BUILDING_GAP)).1
    let min_length := max (max building_space (furthest_branch + BUILDING_GAP * 2)) 15
    let start := origin
    let stop : GeoCoord :=
      if direction = "horizontal" then ⟨origin.x + min_length, origin.y⟩
      else ⟨origin.x, origin.y + min_length⟩
    let street_name := (pathParts folder_path).getLastD ""
    let street_key := folder_path
    let descendant_count := count_descendants folder_path file_metrics
    let st1 :=
      if street_key ∈ st.street_set then st
      else
        let sta := { st with
          street_set := street_key :: st.street_set
          streets := st.streets ++
            [{ path := street_key
               name := street_name
               depth := depth
               file_count := (folder_files.length : ℤ)
               startCoord := start
               endCoord := stop
               descendant_count := descendant_count }] }
        let stb := create_sidewalks sta street_key start stop direction connector_start
        register_street_box stb start stop direction
    let st2 := (place_buildings_along_street st1 folder_files street_key start
      direction 0).1
    let looped := (subfolder_spaces.enum.foldl
      (fun acc ins =>
        let stl := acc.1
        let current_offset := acc.2
        let i := ins.1
        let subfolder_name := ins.2.1
        let subtree := ins.2.2.1
        let subfolder_space := ins.2.2.2
        let subfolder_path := folder_path ++ "/" ++ subfolder_name
        let side : ℤ := if i % 2 = 0 then 1 else -1
        let new_direction := if direction = "horizontal" then "vertical" else "horizontal"
        let position_along := current_offset + subfolder_space / 2
        let perpendicular_offset := get_perpendicular_offset
        let hor := direction = "horizontal"
        let child_connector_start : GeoCoord :=
          if hor then ⟨start.x + position_along, origin.y⟩
          else ⟨origin.x, start.y + position_along⟩
        let branch_origin : GeoCoord :=
          if hor then ⟨start.x + position_along, origin.y + (side : ℚ) * perpendicular_offset⟩
          else ⟨origin.x + (side : ℚ) * perpendicular_offset, start.y + position_along⟩
        let sta := create_connector_street stl folder_path subfolder_path
          child_connector_start branch_origin file_metrics
        let stb := (layout_folder_fuel fuel sta subtree subfolder_path file_metrics
          (depth + 1) branch_origin new_direction (some child_connector_start)).1
        (stb, current_offset + subfolder_space + BUILDING_GAP))
      (st2, building_space + BUILDING_GAP)).1
    (looped, (min_length, get_perpendicular_offset * 2))

/-- `GeoJSONLayoutEngine._create_main_street`: size every top-level folder,
lay the main street long enough to span every branch point, place root
files along it, then branch each top-level folder off it on alternating
sides. -/
def create_main_street (st : GeoEngineState) (tree : FolderTree)
    (file_metrics : MetricsMap) (root_files : MetricsMap) : GeoEngineState :=
  let fuel := treeDepthFuel file_metrics
  let folder_spaces : List (String × FolderTree × ℚ) := tree.children.map
    (fun kt => (kt.1, kt.2, calculate_folder_space_fuel fuel kt.2 kt.1 file_metrics))
  let num_folders := folder_spaces.length
  let min_slot_width := get_perpendicular_offset * 2
  let root_buildings_space : ℚ :=
    (((root_files.length + 1) / 2 : ℕ) : ℚ) * (MAX_BUILDING_WIDTH + BUILDING_GAP)
  let furthest_branch : ℚ := (folder_spaces.foldl
    (fun acc ns =>
      (max acc.1 (acc.2 + ns.2.2 / 2), acc.2 + ns.2.2 + BUILDING_GAP * 2))
    ((0 : ℚ), root_buildings_space + BUILDING_GAP * 2)).1
  let main_street_length := max (furthest_branch + BUILDING_GAP * 2 + 20)
    ((num_folders : ℚ) * min_slot_width + 40)
  let main_start : GeoCoord := ⟨0, 0⟩
  let main_end : GeoCoord := ⟨main_street_length, 0⟩
  let total_descendants := file_metrics.length
  let st1 := { st with
    street_set := "root" :: st.street_set
    streets := st.streets ++
      [{ path := "root"
         name := st.root_name
         depth := 0
         file_count := (root_files.length : ℤ)
         startCoord := main_start
         endCoord := main_end
         descendant_count := (total_descendants : ℤ) }] }
  let st2 := create_sidewalks st1 "root" main_start main_end "horizontal" none
  let st3 := register_street_box st2 main_start main_end "horizontal"
  let st4 := (place_buildings_along_street st3 root_files "root" main_start
    "horizontal" 0).1
  (folder_spaces.enum.foldl
    (fun acc ifs =>
      let stl := acc.1
      let current_x := acc.2
      let i := ifs.1
      let folder_name := ifs.2.1
      let subtree := ifs.2.2.1
      let folder_space := ifs.2.2.2
      let side : ℤ := if i % 2 = 0 then 1 else -1
      let branch_x := current_x + folder_space / 2
      let perpendicular_offset := get_perpendicular_offset
      let branch_origin : GeoCoord := ⟨branch_x, (side : ℚ) * perpendicular_offset⟩
      let connector_start : GeoCoord := ⟨branch_x, 0⟩
      let sta := create_connector_street stl "root" folder_name connector_start
        branch_origin file_metrics
      let stb := (layout_folder_fuel fuel sta subtree folder_name file_metrics 1
        branch_origin "vertical" (some connector_start)).1
      (stb, current_x + folder_space + BUILDING_GAP * 2))
    (st4, root_buildings_space + BUILDING_GAP * 2)).1

/-- All coordinates the geojson engine's `_create_grass_area` scans:
street endpoints and building corners. -/
def geoGrassCoords (st : GeoEngineState) : List GeoCoord :=
  (st.streets.map (fun s => [s.startCoord, s.endCoord])).flatten ++
  (st.buildings.map (fun b => b.corners)).flatten

/-- `GeoJSONLayoutEngine._create_grass_area`: bounding rectangle of every
street endpoint and building corner, expanded by a margin of 10 (skipped
for an engine without streets and buildings). -/
def geo_create_grass_area (st : GeoEngineState) : GeoEngineState :=
  if st.streets.isEmpty ∧ st.buildings.isEmpty then st
  else
    match qListMin ((geoGrassCoords st).map GeoCoord.x),
        qListMin ((geoGrassCoords st).map GeoCoord.y),
        qListMax ((geoGrassCoords st).map GeoCoord.x),
        qListMax ((geoGrassCoords st).map GeoCoord.y) with
    | some min_x, some min_y, some max_x, some max_y =>
      { st with grass := some ⟨[⟨min_x - 10, min_y - 10⟩, ⟨max_x + 10, min_y - 10⟩,
          ⟨max_x + 10, max_y + 10⟩, ⟨min_x - 10, max_y + 10⟩]⟩ }
    | _, _, _, _ => st

/-- One feature of the geojson engine's exported collection. -/
inductive GeoFeature where
| grassF : GrassFeature → GeoFeature
| streetF : StreetFeature → GeoFeature
| buildingF : GeoBuildingFeature → GeoFeature
| sidewalkF : SidewalkFeature → GeoFeature
| footpathF : FootpathFeature → GeoFeature
deriving DecidableEq

/-- All coordinates `_to_geojson` scans for its normalization bounding box:
street endpoints, building corners, sidewalk corners and footpath points
(grass bounds are normalized but not scanned). -/
def geoNormCoords (st : GeoEngineState) : List GeoCoord :=
  (st.streets.map (fun s => [s.startCoord, s.endCoord])).flatten ++
  (st.buildings.map (fun b => b.corners)).flatten ++
  (st.sidewalks.map (fun s => s.corners)).flatten ++
  (st.footpaths.map (fun f => f.points)).flatten

/-- `GeoJSONLayoutEngine._to_geojson`: normalize every coordinate by the
uniform scale `min(2·target/width, 2·target/height)` about the bounding-box
center (defaulting to the unit box `(0,0)-(1,1)` when there are no
coordinates at all), mutating the stored features in place, then emit
grass, streets, buildings, sidewalks and footpaths in that order.  The
float literal `0.005` is embedded as the exact rational it denotes in the
source text. -/
def geo_to_geojson (st : GeoEngineState) : List GeoFeature × GeoEngineState :=
  let coords := geoNormCoords st
  let bounds : ℚ × ℚ × ℚ × ℚ :=
    match qListMin (coords.map GeoCoord.x), qListMin (coords.map GeoCoord.y),
        qListMax (coords.map GeoCoord.x), qListMax (coords.map GeoCoord.y) with
    | some a, some b, some c, some d => (a, b, c, d)
    | _, _, _, _ => (0, 0, 1, 1)
  let min_x := bounds.1
  let min_y := bounds.2.1
  let max_x := bounds.2.2.1
  let max_y := bounds.2.2.2
  let target_range : ℚ := 5 / 1000
  let width := if max_x - min_x = 0 then 1 else max_x - min_x
  let height := if max_y - min_y = 0 then 1 else max_y - min_y
  let scale := min (target_range * 2 / width) (target_range * 2 / height)
  let center_x := (min_x + max_x) / 2
  let center_y := (min_y + max_y) / 2
  let norm : GeoCoord → GeoCoord := fun c =>
    ⟨(c.x - center_x) * scale, (c.y - center_y) * scale⟩
  let streets' := st.streets.map (fun s =>
    { s with startCoord := norm s.startCoord, endCoord := norm s.endCoord })
  let buildings' := st.buildings.map (fun b => { b with corners := b.corners.map norm })
  let sidewalks' := st.sidewalks.map (fun s => { s with corners := s.corners.map norm })
  let footpaths' := st.footpaths.map (fun f => { f with points := f.points.map norm })
  let grass' := st.grass.map (fun gr => (⟨gr.bounds.map norm⟩ : GrassFeature))
  let st' := { st with
    streets := streets'
    buildings := buildings'
    sidewalks := sidewalks'
    footpaths := footpaths'
    grass := grass' }
  let features :=
    (match st'.grass with
     | some gr => [GeoFeature.grassF gr]
     | none => []) ++
    st'.streets.map GeoFeature.streetF ++
    st'.buildings.map GeoFeature.buildingF ++
    st'.sidewalks.map GeoFeature.sidewalkF ++
    st'.footpaths.map GeoFeature.footpathF
  (features, st')

/-- `GeoJSONLayoutEngine.layout`: reset every engine field, build the folder
tree and the root file list, create the main street, the grass area, and
export.  Returns the exported feature list together with the engine state
left behind; the `prev` argument is the prior state, which the reset makes
irrelevant. -/
def geoLayout (prev : GeoEngineState) (file_metrics : MetricsMap)
    (root_name : String) : List GeoFeature × GeoEngineState :=
  let st0 : GeoEngineState :=
    { streets := []
      buildings := []
      sidewalks := []
      footpaths := []
      grass := none
      occupied_boxes := []
      street_set := []
      root_name := root_name }
  let tree := build_tree file_metrics
  let root_files := file_metrics.filter (fun pm => parent_folder pm.1 = "")
  let st1 := create_main_street st0 tree file_metrics root_files
  let st2 := geo_create_grass_area st1
  geo_to_geojson st2

/-! ### Auxiliary definitions for stating the claims -/

/-- Axis-aligned bounding box of a footprint's corner list (first corner
seeds the fold). -/
def footprintBox : List GeoCoord → BoundingBox
  | [] => ⟨0, 0, 0, 0⟩
  | c :: rest => rest.foldl
      (fun b q => ⟨min b.min_x q.x, min b.min_y q.y, max b.max_x q.x, max b.max_y q.y⟩)
      ⟨c.x, c.y, c.x, c.y⟩

/-- The building features among a tile-engine feature collection. -/
def tileBuildingsOf (fs : List TileFeature) : List TileBuildingFeature :=
  fs.filterMap (fun f => match f with
    | TileFeature.buildingF b => some b
    | _ => none)

/-- The `layer` property value of a geojson-engine feature. -/
def geoFeatureKind : GeoFeature → String
  | GeoFeature.grassF _ => "grass"
  | GeoFeature.streetF _ => "streets"
  | GeoFeature.buildingF _ => "buildings"
  | GeoFeature.sidewalkF _ => "sidewalks"
  | GeoFeature.footpathF _ => "footpaths"

/-- The `layer` property value of a tile-engine feature. -/
def tileFeatureKind : TileFeature → String
  | TileFeature.grassF _ => "grass"
  | TileFeature.streetF _ => "streets"
  | TileFeature.buildingF _ => "buildings"

/-- A one-cell unit move along exactly one axis. -/
def isUnitStep (a b : Pos) : Prop :=
  (|b.1 - a.1| = 1 ∧ b.2 = a.2) ∨ (b.1 = a.1 ∧ |b.2 - a.2| = 1)

/-- Chebyshev ball membership: within `r` of `s` on both axes. -/
def inRad (s : Pos) (r : ℕ) (p : Pos) : Prop :=
  |p.1 - s.1| ≤ (r : ℤ) ∧ |p.2 - s.2| ≤ (r : ℤ)

/-- Four-directional connectivity through cells whose expansion points stay
within radius `r` of `s`.  `ReachIn s r p z` holds when the BFS of
`find_free_region`, were it to reach `p`, could walk to `z`. -/
inductive ReachIn (s : Pos) (r : ℕ) : Pos → Pos → Prop where
| refl (p : Pos) : ReachIn s r p p
| step {p q z : Pos} : inRad s r p → q ∈ neighborsOf p → ReachIn s r q z →
    ReachIn s r p z

/-- A five-file metrics mapping on which the tile engine emits two buildings
of different files with overlapping footprints: folder `b` holds three
files, its subfolder `b/c` two more, every file 10 lines of 40 characters
(tier width 10 > `CELL_SIZE`). -/
def c1File (p : String) : String × FileMetrics :=
  (p, { path := p
        lines_of_code := 10
        avg_line_length := 40
        language := "python"
        created_at := "t0"
        last_modified := "t1"
        line_lengths := List.replicate 10 40 })

/-- The concrete failing input of claim C1. -/
def c1Metrics : MetricsMap :=
  [c1File "b/f0.py", c1File "b/f1.py", c1File "b/f2.py",
   c1File "b/c/g0.py", c1File "b/c/g1.py"]

/-! ### Helper lemmas -/

theorem foldl_setCell (content : TileContent) :
    ∀ (cells : List Pos) (g : Cells) (q : Pos),
      (cells.foldl (fun g' c => setCell g' c content) g) q =
        if q ∈ cells then some content else g q := by
  intro cells
  induction cells with
  | nil => intro g q; simp
  | cons c rest ih =>
    intro g q
    rw [List.foldl_cons, ih]
    by_cases hq : q ∈ rest
    · simp [hq]
    · by_cases hqc : q = c <;> simp [hq, hqc, setCell]

/-! ### Claim theorems -/

/-- C5: for every integer line count, `calculate_num_tiers` equals the step
function of the claim — 1 for L≤50, 2 for 51–100, 3 for 101–200, 4 for
201–400, 5 for 401–700, 6 for 701–1000, 7 for 1001–1500, 8 for 1501–2500,
9 for 2501–4000, 10 from 4001 on — and never exceeds 10. -/
theorem C5_num_tiers_step (L : ℤ) :
    (L ≤ 50 → calculate_num_tiers L = 1) ∧
    (51 ≤ L ∧ L ≤ 100 → calculate_num_tiers L = 2) ∧
    (101 ≤ L ∧ L ≤ 200 → calculate_num_tiers L = 3) ∧
    (201 ≤ L ∧ L ≤ 400 → calculate_num_tiers L = 4) ∧
    (401 ≤ L ∧ L ≤ 700 → calculate_num_tiers L = 5) ∧
    (701 ≤ L ∧ L ≤ 1000 → calculate_num_tiers L = 6) ∧
    (1001 ≤ L ∧ L ≤ 1500 → calculate_num_tiers L = 7) ∧
    (1501 ≤ L ∧ L ≤ 2500 → calculate_num_tiers L = 8) ∧
    (2501 ≤ L ∧ L ≤ 4000 → calculate_num_tiers L = 9) ∧
    (4001 ≤ L → calculate_num_tiers L = 10) ∧
    calculate_num_tiers L ≤ 10 := by
  unfold calculate_num_tiers
  omega

/-- Witness for C5 at the breakpoint L = 4001 (top band, 10 tiers). -/
theorem C5_num_tiers_step_witness :
    (4001 : ℤ) ≤ 4001 ∧ calculate_num_tiers 4001 = 10 :=
  ⟨by decide, (C5_num_tiers_step 4001).2.2.2.2.2.2.2.2.2.1 (by decide)⟩

/-- C6: the claim says each tier width comes from a trimmed mean of the
tier's chunk with empty-input fallback 40.0, but `calculate_tier_widths`
in the source uses the plain mean and falls back to
`[MIN_BUILDING_WIDTH]`: on the ten line lengths
`[0, 12, …, 12, 60]` with one tier the source computes width
`15.6 / 3 = 5.2`, while the trimmed mean of the claim (drop one element
each side) gives `12 / 3 = 4`; the spec-modelled `_trimmed_average`
(which the module's own tests import, and which is absent from the
module) behaves as the claim says on its test vectors. -/
theorem C6_plain_mean_not_trimmed :
    calculate_tier_widths [0, 12, 12, 12, 12, 12, 12, 12, 12, 60] 1 = [26 / 5] ∧
    min (max (trimmed_average [0, 12, 12, 12, 12, 12, 12, 12, 12, 60] / 3)
      MIN_BUILDING_WIDTH) MAX_BUILDING_WIDTH = 4 ∧
    ((26 / 5 : ℚ) = 4 → False) ∧
    calculate_tier_widths [] 3 = [MIN_BUILDING_WIDTH] ∧
    trimmed_average [] = 40 ∧
    trimmed_average [10, 20] = 15 ∧
    trimmed_average [1, 1, 40, 40, 40, 40, 40, 40, 100, 100] = 341 / 8 := by
  refine ⟨by decide, by decide, by decide, by decide, by decide, by decide, by decide⟩

/-- C9: both layout engines are deterministic — the per-call state reset
makes the result independent of the prior engine state, so identical
inputs give identical outputs and a second run right after a first one
returns the same collection. -/
theorem C9_layout_deterministic (e₁ e₂ : GeoEngineState)
    (t₁ t₂ : TileEngineState) (m : MetricsMap) (root : String) :
    geoLayout e₁ m root = geoLayout e₂ m root ∧
    (geoLayout (geoLayout e₁ m root).2 m root).1 = (geoLayout e₁ m root).1 ∧
    tileLayout t₁ m root = tileLayout t₂ m root ∧
    (tileLayout (tileLayout t₁ m root).2 m root).1 = (tileLayout t₁ m root).1 :=
  ⟨rfl, rfl, rfl, rfl⟩

/-- C10: grid/world coordinate conversion round-trips for every integer
grid position and positive cell size: `world_to_grid ∘ grid_to_world` is
the identity. -/
theorem C10_grid_world_roundtrip (gx gy : ℤ) (cell_size : ℚ)
    (hc : 0 < cell_size) :
    world_to_grid cell_size (grid_to_world cell_size gx gy).1
      (grid_to_world cell_size gx gy).2 = (gx, gy) := by
  unfold grid_to_world world_to_grid
  dsimp only
  rw [mul_div_cancel_right₀ _ (ne_of_gt hc), mul_div_cancel_right₀ _ (ne_of_gt hc)]
  rw [Int.floor_intCast, Int.floor_intCast]

/-- Witness for C10 at grid position `(2, 3)` with the engine's cell size 6. -/
theorem C10_grid_world_roundtrip_witness :
    world_to_grid 6 (grid_to_world 6 2 3).1 (grid_to_world 6 2 3).2 = (2, 3) :=
  C10_grid_world_roundtrip 2 3 6 (by decide)

/-- C2: `place_building` is atomic check-then-commit — if any cell of the
`width × height` rectangle fails `can_place_building` it returns `False`
with the grid untouched, and if all cells pass it returns `True` with
`building` content written to exactly the rectangle's cells; `place_road`
behaves the same way over its explicit cell list with `can_place_road`. -/
theorem C2_atomic_placement (g : Cells) (p : Pos) (path : String) (depth : ℤ)
    (width height : ℕ) (cells : List Pos) :
    ((∃ c ∈ rectCells p width height, can_place_building g c = false) →
      place_building g p path depth width height = (false, g)) ∧
    ((∀ c ∈ rectCells p width height, can_place_building g c = true) →
      place_building g p path depth width height =
        (true, fun q => if q ∈ rectCells p width height
          then some ⟨TileType.building, path, depth⟩ else g q)) ∧
    ((∃ c ∈ cells, can_place_road g c path depth = false) →
      place_road g cells path depth = (false, g)) ∧
    ((∀ c ∈ cells, can_place_road g c path depth = true) →
      place_road g cells path depth =
        (true, fun q => if q ∈ cells
          then some ⟨TileType.road, path, depth⟩ else g q)) := by
  refine ⟨?_, ?_, ?_, ?_⟩
  · intro ⟨c, hc, hfail⟩
    rw [place_building, if_neg]
    intro hall
    rw [List.all_eq_true] at hall
    have := hall c hc
    simp [hfail] at this
  · intro hall
    rw [place_building, if_pos]
    · refine Prod.ext rfl ?_
      funext q
      exact foldl_setCell _ _ _ _
    · rw [List.all_eq_true]
      intro c hc
      simp [hall c hc]
  · intro ⟨c, hc, hfail⟩
    rw [place_road, if_neg]
    intro hall
    rw [List.all_eq_true] at hall
    have := hall c hc
    simp [hfail] at this
  · intro hall
    rw [place_road, if_pos]
    · refine Prod.ext rfl ?_
      funext q
      exact foldl_setCell _ _ _ _
    · rw [List.all_eq_true]
      intro c hc
      simp [hall c hc]

/-- Witness for C2 on a one-cell grid holding a building at the origin:
placing a `1 × 1` building there fails and leaves the grid unchanged. -/
theorem C2_atomic_placement_witness :
    (∃ c ∈ rectCells (0, 0) 1 1,
      can_place_building
        (setCell emptyCells (0, 0) ⟨TileType.building, "a.py", 0⟩) c = false) ∧
    place_building (setCell emptyCells (0, 0) ⟨TileType.building, "a.py", 0⟩)
      (0, 0) "b.py" 0 1 1 =
      (false, setCell emptyCells (0, 0) ⟨TileType.building, "a.py", 0⟩) :=
  ⟨by decide,
   (C2_atomic_placement (setCell emptyCells (0, 0) ⟨TileType.building, "a.py", 0⟩)
     (0, 0) "b.py" 0 1 1 []).1 (by decide)⟩

/-- C3: `can_place_road` is true exactly on empty cells and on roads at
depth distance one; any building or reserved occupant, or a road at a
non-adjacent depth, blocks it.  Consequently a `place_road` call changes a
cell only when that cell was empty or held a road of adjacent depth (and
then writes road content), and `place_building` fails, leaving the grid
unchanged, whenever any cell of its rectangle is occupied by anything. -/
theorem C3_road_crossing (g : Cells) (p : Pos) (path : String) (depth : ℤ) :
    (can_place_road g p path depth = true ↔
      (g p = none ∨ ∃ e, g p = some e ∧ e.type = TileType.road ∧
        |e.depth - depth| = 1)) ∧
    (∀ e, g p = some e →
      (e.type = TileType.building ∨ e.type = TileType.reserved) →
      can_place_road g p path depth = false) ∧
    (∀ cells : List Pos, (place_road g cells path depth).2 p ≠ g p →
      (g p = none ∨ ∃ e, g p = some e ∧ e.type = TileType.road ∧
        |e.depth - depth| = 1) ∧
      (place_road g cells path depth).2 p = some ⟨TileType.road, path, depth⟩) ∧
    (∀ (p0 : Pos) (width height : ℕ), g p ≠ none →
      p ∈ rectCells p0 width height →
      place_building g p0 path depth width height = (false, g)) := by
  have hval : ∀ e, g p = some e → can_place_road g p path depth =
      (if e.type = TileType.road then decide (|e.depth - depth| = 1)
       else false) := by
    intro e hgp
    rw [can_place_road, hgp]
  have hiff : can_place_road g p path depth = true ↔
      (g p = none ∨ ∃ e, g p = some e ∧ e.type = TileType.road ∧
        |e.depth - depth| = 1) := by
    rcases hgp : g p with _ | e
    · rw [can_place_road, hgp]
      simp
    · rw [hval e hgp]
      by_cases ht : e.type = TileType.road
      · rw [if_pos ht, decide_eq_true_eq]
        constructor
        · intro hd
          exact Or.inr ⟨e, rfl, ht, hd⟩
        · rintro (h | ⟨e', he', _, hd⟩)
          · cases h
          · cases he'
            exact hd
      · rw [if_neg ht]
        constructor
        · intro h
          cases h
        · rintro (h | ⟨e', he', ht', _⟩)
          · cases h
          · cases he'
            exact absurd ht' ht
  refine ⟨hiff, ?_, ?_, ?_⟩
  · intro e hge htype
    rw [hval e hge, if_neg]
    rcases htype with h | h <;> rw [h] <;> intro hc <;> cases hc
  · intro cells hchanged
    by_cases hall : ∀ c ∈ cells, can_place_road g c path depth = true
    · have hplaced : place_road g cells path depth =
          (true, cells.foldl
            (fun g' c => setCell g' c ⟨TileType.road, path, depth⟩) g) := by
        rw [place_road, if_pos]
        rw [List.all_eq_true]
        intro c hc
        simp [hall c hc]
      rw [hplaced] at hchanged ⊢
      dsimp only at hchanged ⊢
      rw [foldl_setCell] at hchanged ⊢
      by_cases hp : p ∈ cells
      · rw [if_pos hp]
        exact ⟨hiff.1 (hall p hp), rfl⟩
      · rw [if_neg hp] at hchanged
        exact absurd rfl hchanged
    · have : place_road g cells path depth = (false, g) := by
        rw [place_road, if_neg]
        intro hb
        rw [List.all_eq_true] at hb
        exact hall (fun c hc => by simpa using hb c hc)
      rw [this] at hchanged
      exact absurd rfl hchanged
  · intro p0 width height hocc hmem
    rw [place_building, if_neg]
    intro hb
    rw [List.all_eq_true] at hb
    have := hb p hmem
    rw [can_place_building] at this
    match hg : g p with
    | none => exact hocc hg
    | some e => rw [hg] at this; simp at this

/-- Witness for C3: on a grid with a depth-0 road at the origin, laying a
depth-1 road across it succeeds and transfers ownership of the cell. -/
theorem C3_road_crossing_witness :
    (place_road (setCell emptyCells (0, 0) ⟨TileType.road, "root", 0⟩)
        [(0, 0)] "src" 1).2 (0, 0) = some ⟨TileType.road, "src", 1⟩ :=
  ((C3_road_crossing (setCell emptyCells (0, 0) ⟨TileType.road, "root", 0⟩)
    (0, 0) "src" 1).2.2.1 [(0, 0)] (by decide)).2

theorem neighborsOf_pair (x y : ℤ) :
    neighborsOf (x, y) = [(x + 1, y), (x - 1, y), (x, y + 1), (x, y - 1)] := by
  simp [neighborsOf]
  omega

theorem bfsFuel_sound (g : Cells) (w h : ℕ) (s : Pos) (r : ℕ) :
    ∀ (fuel : ℕ) (queue : List Pos) (visited : Finset Pos) (p : Pos),
      bfsFuel g w h s r fuel queue visited = some (some p) →
      region_is_free g p w h = true ∧ |p.1 - s.1| ≤ (r : ℤ) ∧
        |p.2 - s.2| ≤ (r : ℤ) := by
  intro fuel
  induction fuel with
  | zero =>
    intro queue visited p hp
    simp [bfsFuel] at hp
  | succ fuel ih =>
    intro queue visited p hp
    match queue with
    | [] => simp [bfsFuel] at hp
    | pos :: rest =>
      simp only [bfsFuel] at hp
      by_cases hv : pos ∈ visited
      · rw [if_pos hv] at hp
        exact ih _ _ _ hp
      · rw [if_neg hv] at hp
        by_cases hr : (r : ℤ) < |pos.1 - s.1| ∨ (r : ℤ) < |pos.2 - s.2|
        · rw [if_pos hr] at hp
          exact ih _ _ _ hp
        · rw [if_neg hr] at hp
          by_cases hfree : region_is_free g pos w h = true
          · rw [if_pos hfree] at hp
            push_neg at hr
            obtain rfl : pos = p := by simpa using hp
            exact ⟨hfree, hr.1, hr.2⟩
          · rw [if_neg hfree] at hp
            exact ih _ _ _ hp

theorem reachIn_trans {s : Pos} {r : ℕ} {a b c : Pos}
    (h1 : ReachIn s r a b) (h2 : ReachIn s r b c) : ReachIn s r a c := by
  induction h1 with
  | refl p => exact h2
  | step hin hnb _ ihh => exact ReachIn.step hin hnb (ihh h2)

theorem reach_horizontal (s : Pos) (r : ℕ) (y : ℤ) (hy : |y - s.2| ≤ (r : ℤ)) :
    ∀ (n : ℕ) (x₁ x₂ : ℤ), (x₂ - x₁).natAbs = n →
      |x₁ - s.1| ≤ (r : ℤ) → |x₂ - s.1| ≤ (r : ℤ) →
      ReachIn s r (x₁, y) (x₂, y) := by
  intro n
  induction n with
  | zero =>
    intro x₁ x₂ hd h1 h2
    obtain rfl : x₁ = x₂ := by omega
    exact ReachIn.refl _
  | succ n ihn =>
    intro x₁ x₂ hd h1 h2
    have h1a := abs_le.1 h1
    have h2a := abs_le.1 h2
    by_cases hlt : x₁ < x₂
    · refine ReachIn.step (q := (x₁ + 1, y)) ⟨h1, hy⟩ ?_
        (ihn (x₁ + 1) x₂ (by omega) (abs_le.2 ⟨by omega, by omega⟩) h2)
      rw [neighborsOf_pair]
      simp
    · refine ReachIn.step (q := (x₁ - 1, y)) ⟨h1, hy⟩ ?_
        (ihn (x₁ - 1) x₂ (by omega) (abs_le.2 ⟨by omega, by omega⟩) h2)
      rw [neighborsOf_pair]
      simp

theorem reach_vertical (s : Pos) (r : ℕ) (x : ℤ) (hx : |x - s.1| ≤ (r : ℤ)) :
    ∀ (n : ℕ) (y₁ y₂ : ℤ), (y₂ - y₁).natAbs = n →
      |y₁ - s.2| ≤ (r : ℤ) → |y₂ - s.2| ≤ (r : ℤ) →
      ReachIn s r (x, y₁) (x, y₂) := by
  intro n
  induction n with
  | zero =>
    intro y₁ y₂ hd h1 h2
    obtain rfl : y₁ = y₂ := by omega
    exact ReachIn.refl _
  | succ n ihn =>
    intro y₁ y₂ hd h1 h2
    have h1a := abs_le.1 h1
    have h2a := abs_le.1 h2
    by_cases hlt : y₁ < y₂
    · refine ReachIn.step (q := (x, y₁ + 1)) ⟨hx, h1⟩ ?_
        (ihn (y₁ + 1) y₂ (by omega) (abs_le.2 ⟨by omega, by omega⟩) h2)
      rw [neighborsOf_pair]
      simp
    · refine ReachIn.step (q := (x, y₁ - 1)) ⟨hx, h1⟩ ?_
        (ihn (y₁ - 1) y₂ (by omega) (abs_le.2 ⟨by omega, by omega⟩) h2)
      rw [neighborsOf_pair]
      simp

theorem reachIn_of_inRad (s : Pos) (r : ℕ) (z : Pos) (hz : inRad s r z) :
    ReachIn s r s z := by
  have h1 : ReachIn s r (s.1, s.2) (z.1, s.2) :=
    reach_horizontal s r s.2 (by simp) _ s.1 z.1 rfl (by simp) hz.1
  have h2 : ReachIn s r (z.1, s.2) (z.1, z.2) :=
    reach_vertical s r z.1 hz.1 _ s.2 z.2 rfl (by simp) hz.2
  have h3 := reachIn_trans h1 h2
  rwa [Prod.mk.eta, Prod.mk.eta] at h3

theorem reach_closed (g : Cells) (w h : ℕ) (s : Pos) (r : ℕ)
    (visited : Finset Pos)
    (hI1 : ∀ v ∈ visited, inRad s r v → ∀ n ∈ neighborsOf v, n ∈ visited)
    (hI2 : ∀ v ∈ visited, inRad s r v → region_is_free g v w h = false)
    (q0 z : Pos) (hq0 : q0 ∈ visited) (hreach : ReachIn s r q0 z)
    (hz : inRad s r z) : region_is_free g z w h = false := by
  revert hq0 hz
  induction hreach with
  | refl p =>
    intro hq0 hz
    exact hI2 _ hq0 hz
  | step hin hnb _ ihh =>
    intro hq0 hz
    exact ihh (hI1 _ hq0 hin _ hnb) hz

theorem bfsFuel_complete (g : Cells) (w h : ℕ) (s : Pos) (r : ℕ) :
    ∀ (fuel : ℕ) (queue : List Pos) (visited : Finset Pos),
      bfsFuel g w h s r fuel queue visited = some none →
      (∀ v ∈ visited, inRad s r v → ∀ n ∈ neighborsOf v,
        n ∈ visited ∨ n ∈ queue) →
      (∀ v ∈ visited, inRad s r v → region_is_free g v w h = false) →
      ∀ q0 z, (q0 ∈ visited ∨ q0 ∈ queue) → ReachIn s r q0 z → inRad s r z →
        region_is_free g z w h = false := by
  intro fuel
  induction fuel with
  | zero =>
    intro queue visited hnone
    simp [bfsFuel] at hnone
  | succ fuel ih =>
    intro queue visited hnone hI1 hI2 q0 z hq0 hreach hz
    match queue with
    | [] =>
      refine reach_closed g w h s r visited ?_ hI2 q0 z ?_ hreach hz
      · intro v hvv hrad n hn
        rcases hI1 v hvv hrad n hn with hm | hm
        · exact hm
        · exact absurd hm (List.not_mem_nil _)
      · rcases hq0 with hm | hm
        · exact hm
        · exact absurd hm (List.not_mem_nil _)
    | pos :: rest =>
      simp only [bfsFuel] at hnone
      by_cases hv : pos ∈ visited
      · rw [if_pos hv] at hnone
        refine ih rest visited hnone ?_ hI2 q0 z ?_ hreach hz
        · intro v hvv hrad n hn
          rcases hI1 v hvv hrad n hn with hm | hm
          · exact Or.inl hm
          · rcases List.mem_cons.1 hm with rfl | hm
            · exact Or.inl hv
            · exact Or.inr hm
        · rcases hq0 with hm | hm
          · exact Or.inl hm
          · rcases List.mem_cons.1 hm with rfl | hm
            · exact Or.inl hv
            · exact Or.inr hm
      · rw [if_neg hv] at hnone
        by_cases hr : (r : ℤ) < |pos.1 - s.1| ∨ (r : ℤ) < |pos.2 - s.2|
        · rw [if_pos hr] at hnone
          refine ih rest (insert pos visited) hnone ?_ ?_ q0 z ?_ hreach hz
          · intro v hvv hrad n hn
            rcases Finset.mem_insert.1 hvv with rfl | hvv
            · exfalso
              rcases hr with hx | hx
              · exact absurd hrad.1 (not_le.2 hx)
              · exact absurd hrad.2 (not_le.2 hx)
            · rcases hI1 v hvv hrad n hn with hm | hm
              · exact Or.inl (Finset.mem_insert_of_mem hm)
              · rcases List.mem_cons.1 hm with rfl | hm
                · exact Or.inl (Finset.mem_insert_self _ _)
                · exact Or.inr hm
          · intro v hvv hrad
            rcases Finset.mem_insert.1 hvv with rfl | hvv
            · exfalso
              rcases hr with hx | hx
              · exact absurd hrad.1 (not_le.2 hx)
              · exact absurd hrad.2 (not_le.2 hx)
            · exact hI2 v hvv hrad
          · rcases hq0 with hm | hm
            · exact Or.inl (Finset.mem_insert_of_mem hm)
            · rcases List.mem_cons.1 hm with rfl | hm
              · exact Or.inl (Finset.mem_insert_self _ _)
              · exact Or.inr hm
        · rw [if_neg hr] at hnone
          by_cases hfree : region_is_free g pos w h = true
          · rw [if_pos hfree] at hnone
            simp at hnone
          · rw [if_neg hfree] at hnone
            refine ih _ (insert pos visited) hnone ?_ ?_ q0 z ?_ hreach hz
            · intro v hvv hrad n hn
              rcases Finset.mem_insert.1 hvv with rfl | hvv
              · by_cases hnv : n ∈ insert v visited
                · exact Or.inl hnv
                · refine Or.inr (List.mem_append.2 (Or.inr ?_))
                  rw [List.mem_filter]
                  exact ⟨hn, by simpa using hnv⟩
              · rcases hI1 v hvv hrad n hn with hm | hm
                · exact Or.inl (Finset.mem_insert_of_mem hm)
                · rcases List.mem_cons.1 hm with rfl | hm
                  · exact Or.inl (Finset.mem_insert_self _ _)
                  · exact Or.inr (List.mem_append.2 (Or.inl hm))
            · intro v hvv hrad
              rcases Finset.mem_insert.1 hvv with rfl | hvv
              · exact Bool.not_eq_true _ ▸ (by simpa using hfree)
              · exact hI2 v hvv hrad
            · rcases hq0 with hm | hm
              · exact Or.inl (Finset.mem_insert_of_mem hm)
              · rcases List.mem_cons.1 hm with rfl | hm
                · exact Or.inl (Finset.mem_insert_self _ _)
                · exact Or.inr (List.mem_append.2 (Or.inl hm))

/-- C4: `find_free_region` terminates (its BFS reaches an answer within the
a-priori step budget `bfs_steps r`), and either returns an anchor whose
`width × height` region is entirely free and which lies within
`max_search_radius` of the start on both axes, or returns `None`, in which
case no cell within that radius anchors a free region. -/
theorem C4_find_free_region_correct (g : Cells) (s : Pos) (w h : ℕ) (d : ℤ)
    (r : ℕ) :
    (∃ res : Option Pos, bfsFuel g w h s r (bfs_steps r) [s] ∅ = some res) ∧
    (match find_free_region g s w h d r with
     | some p => region_is_free g p w h = true ∧ |p.1 - s.1| ≤ (r : ℤ) ∧
         |p.2 - s.2| ≤ (r : ℤ)
     | none => ∀ z : Pos, |z.1 - s.1| ≤ (r : ℤ) → |z.2 - s.2| ≤ (r : ℤ) →
         region_is_free g z w h = false) := by
  obtain ⟨res, hres⟩ :=
    Option.ne_none_iff_exists'.1 (find_free_region_terminates g s w h d r)
  refine ⟨⟨res, hres⟩, ?_⟩
  have hfind : find_free_region g s w h d r = res := by
    rw [find_free_region, hres]
    rfl
  rw [hfind]
  match res with
  | some p => exact bfsFuel_sound g w h s r _ _ _ _ hres
  | none =>
    intro z hz1 hz2
    refine bfsFuel_complete g w h s r _ _ _ hres ?_ ?_ s z
      (Or.inr (by simp)) (reachIn_of_inRad s r z ⟨hz1, hz2⟩) ⟨hz1, hz2⟩
    · intro v hvv
      simp at hvv
    · intro v hvv
      simp at hvv

/-- Witness for C4 on the empty grid with radius 5: the search finds the
start cell itself, which anchors a free 2×2 region at distance zero. -/
theorem C4_find_free_region_correct_witness :
    (∃ res : Option Pos,
      bfsFuel emptyCells 2 2 (0, 0) 5 (bfs_steps 5) [(0, 0)] ∅ = some res) ∧
    (match find_free_region emptyCells (0, 0) 2 2 1 5 with
     | some p => region_is_free emptyCells p 2 2 = true ∧
         |p.1 - (0 : ℤ)| ≤ (5 : ℤ) ∧ |p.2 - (0 : ℤ)| ≤ (5 : ℤ)
     | none => ∀ z : Pos, |z.1 - (0 : ℤ)| ≤ (5 : ℤ) →
         |z.2 - (0 : ℤ)| ≤ (5 : ℤ) → region_is_free emptyCells z 2 2 = false) :=
  C4_find_free_region_correct emptyCells (0, 0) 2 2 1 5

set_option maxHeartbeats 4000000 in
/-- C1: the no-overlap invariant fails on the code.  On `c1Metrics` the tile
engine emits building features for the distinct files `b/f2.py` (footprint
`[22,32] × [28,38]`) and `b/c/g1.py` (footprint `[22,32] × [22,32]`) whose
axis-aligned bounding boxes overlap: the engine reserves only a single
`CELL_SIZE = 6` cell per file (`place_building` with `width=1, height=1`,
its boolean result discarded) while drawn tier widths reach
`MAX_BUILDING_WIDTH = 10`, and no reservation of the largest possible
footprint exists. -/
theorem C1_overlapping_footprints :
    ∃ b1 ∈ tileBuildingsOf (tileLayout tileEngineInit c1Metrics "root").1,
      ∃ b2 ∈ tileBuildingsOf (tileLayout tileEngineInit c1Metrics "root").1,
        b1.path ≠ b2.path ∧
        (footprintBox b1.corners).overlaps (footprintBox b2.corners) 0 = true := by
  decide

/-- C8 (claim as stated is false): with an empty metrics mapping, the
feature collection returned by `layout()` is not empty. -/
theorem C8_empty_input_not_empty :
    ¬((geoLayout geoEngineInit [] "root").1 = []) := by
  decide

/-- C8 (amended): with an empty metrics mapping, `layout()` raises no error
and returns a structurally valid feature collection, but not an empty one:
the geojson engine emits exactly four features — the grass polygon, the
root main street and its two sidewalks — and no buildings; the tile-grid
engine likewise emits its grass polygon and root street. -/
theorem C8_empty_input_layout :
    (geoLayout geoEngineInit [] "root").1.map geoFeatureKind =
      ["grass", "streets", "sidewalks", "sidewalks"] ∧
    (geoLayout geoEngineInit [] "root").1.length = 4 ∧
    (tileLayout tileEngineInit [] "root").1.map tileFeatureKind =
      ["grass", "streets"] := by
  refine ⟨by decide, by decide, by decide⟩

theorem pyRangeUp_mem {a b x : ℤ} (h : x ∈ pyRangeUp a b) : a ≤ x ∧ x < b := by
  rw [pyRangeUp] at h
  simp only [List.mem_map, List.mem_range] at h
  obtain ⟨i, hi, rfl⟩ := h
  omega

theorem pyRangeDown_mem {a b x : ℤ} (h : x ∈ pyRangeDown a b) : b < x ∧ x ≤ a := by
  rw [pyRangeDown] at h
  simp only [List.mem_map, List.mem_range] at h
  obtain ⟨i, hi, rfl⟩ := h
  omega

theorem pyRangeUp_head {a b : ℤ} (h : a < b) : (pyRangeUp a b).head? = some a := by
  rw [pyRangeUp]
  have hn : (b - a).toNat = ((b - a).toNat - 1) + 1 := by omega
  rw [hn, List.range_succ_eq_map]
  simp

theorem pyRangeDown_head {a b : ℤ} (h : b < a) : (pyRangeDown a b).head? = some a := by
  rw [pyRangeDown]
  have hn : (a - b).toNat = ((a - b).toNat - 1) + 1 := by omega
  rw [hn, List.range_succ_eq_map]
  simp

theorem pyRangeUp_getLast {a b : ℤ} (h : a < b) :
    (pyRangeUp a b).getLast? = some (b - 1) := by
  rw [pyRangeUp]
  have hn : (b - a).toNat = ((b - a).toNat - 1) + 1 := by omega
  rw [hn, List.range_succ, List.map_append]
  simp only [List.map_cons, List.map_nil]
  rw [List.getLast?_concat]
  have : ((((b - a).toNat - 1 : ℕ)) : ℤ) = b - a - 1 := by omega
  rw [this]
  norm_num
  omega

theorem pyRangeDown_getLast {a b : ℤ} (h : b < a) :
    (pyRangeDown a b).getLast? = some (b + 1) := by
  rw [pyRangeDown]
  have hn : (a - b).toNat = ((a - b).toNat - 1) + 1 := by omega
  rw [hn, List.range_succ, List.map_append]
  simp only [List.map_cons, List.map_nil]
  rw [List.getLast?_concat]
  have : ((((a - b).toNat - 1 : ℕ)) : ℤ) = a - b - 1 := by omega
  rw [this]
  norm_num
  omega

theorem pyRangeUp_chain (a b : ℤ) :
    List.Chain' (fun u v : ℤ => v = u + 1) (pyRangeUp a b) := by
  rw [pyRangeUp, List.chain'_iff_get]
  intro i hi
  simp only [List.length_map, List.length_range] at hi
  rw [List.get_map, List.get_map]
  simp only [List.get_range]
  push_cast
  ring

theorem pyRangeDown_chain (a b : ℤ) :
    List.Chain' (fun u v : ℤ => v = u - 1) (pyRangeDown a b) := by
  rw [pyRangeDown, List.chain'_iff_get]
  intro i hi
  simp only [List.length_map, List.length_range] at hi
  rw [List.get_map, List.get_map]
  simp only [List.get_range]
  push_cast
  ring

theorem segFull_ne_nil (a b : ℤ) : segFull a b ≠ [] := by
  rw [segFull]
  split_ifs with hab
  · rw [pyRangeUp]
    simp only [ne_eq, List.map_eq_nil_iff, List.range_eq_nil]
    omega
  · rw [pyRangeDown]
    simp only [ne_eq, List.map_eq_nil_iff, List.range_eq_nil]
    omega

theorem segFull_head (a b : ℤ) : (segFull a b).head? = some a := by
  rw [segFull]
  split_ifs with hab
  · exact pyRangeUp_head (by omega)
  · exact pyRangeDown_head (by omega)

theorem segFull_getLast (a b : ℤ) : (segFull a b).getLast? = some b := by
  rw [segFull]
  split_ifs with hab
  · rw [pyRangeUp_getLast (by omega)]
    norm_num
  · rw [pyRangeDown_getLast (by omega)]
    norm_num

theorem segFull_mem {a b x : ℤ} (h : x ∈ segFull a b) :
    (a ≤ x ∧ x ≤ b) ∨ (b ≤ x ∧ x ≤ a) := by
  rw [segFull] at h
  split_ifs at h with hab
  · have := pyRangeUp_mem h
    omega
  · have := pyRangeDown_mem h
    omega

theorem segFull_chain (a b : ℤ) :
    List.Chain' (fun u v : ℤ => |v - u| = 1) (segFull a b) := by
  rw [segFull]
  split_ifs with hab
  · exact (pyRangeUp_chain a (b + 1)).imp (fun u v hv => by subst hv; simp)
  · exact (pyRangeDown_chain a (b - 1)).imp (fun u v hv => by subst hv; simp)

theorem segTail_eq_nil_iff (a b : ℤ) : segTail a b = [] ↔ a = b := by
  rw [segTail]
  split_ifs with hab
  · rw [pyRangeUp]
    simp only [List.map_eq_nil_iff, List.range_eq_nil]
    omega
  · rw [pyRangeDown]
    simp only [List.map_eq_nil_iff, List.range_eq_nil]
    omega

theorem segTail_head {a b : ℤ} (h : a ≠ b) :
    ∃ y, (segTail a b).head? = some y ∧ |y - a| = 1 := by
  rw [segTail]
  split_ifs with hab
  · refine ⟨a + 1, pyRangeUp_head (by omega), by simp⟩
  · refine ⟨a - 1, pyRangeDown_head (by omega), by simp⟩

theorem segTail_getLast {a b : ℤ} (h : a ≠ b) :
    (segTail a b).getLast? = some b := by
  rw [segTail]
  split_ifs with hab
  · rw [pyRangeUp_getLast (by omega)]
    norm_num
  · rw [pyRangeDown_getLast (by omega)]
    norm_num

theorem segTail_mem {a b x : ℤ} (h : x ∈ segTail a b) :
    (a < x ∧ x ≤ b) ∨ (b ≤ x ∧ x < a) := by
  rw [segTail] at h
  split_ifs at h with hab
  · have := pyRangeUp_mem h
    omega
  · have := pyRangeDown_mem h
    omega

theorem segTail_chain (a b : ℤ) :
    List.Chain' (fun u v : ℤ => |v - u| = 1) (segTail a b) := by
  rw [segTail]
  split_ifs with hab
  · exact (pyRangeUp_chain (a + 1) (b + 1)).imp (fun u v hv => by subst hv; simp)
  · exact (pyRangeDown_chain (a - 1) (b - 1)).imp (fun u v hv => by subst hv; simp)

theorem create_l_path_eq_true (sx sy ex ey : ℤ) :
    create_l_path (sx, sy) (ex, ey) true =
      (segFull sx ex).map (fun x => ((x, sy) : Pos)) ++
      (segTail sy ey).map (fun y => ((ex, y) : Pos)) := rfl

theorem create_l_path_eq_false (sx sy ex ey : ℤ) :
    create_l_path (sx, sy) (ex, ey) false =
      (segFull sy ey).map (fun y => ((sx, y) : Pos)) ++
      (segTail sx ex).map (fun x => ((x, ey) : Pos)) := rfl

theorem segFull_mem_straight {a x : ℤ} (h : x ∈ segFull a a) : x = a := by
  have := segFull_mem h
  omega

theorem segTail_mem_straight {a x : ℤ} (h : x ∈ segTail a a) : False := by
  have := segTail_mem h
  omega

theorem lshape_ne_nil (a b c e : ℤ) (f g : ℤ → Pos) :
    (segFull a b).map f ++ (segTail c e).map g ≠ [] := by
  intro h
  rcases List.append_eq_nil.mp h with ⟨h1, _⟩
  exact segFull_ne_nil a b (List.map_eq_nil_iff.mp h1)

theorem lshape_head (a b c e : ℤ) (f g : ℤ → Pos) :
    ((segFull a b).map f ++ (segTail c e).map g).head? = some (f a) := by
  rw [List.head?_append, List.head?_map, segFull_head]
  rfl

theorem lshape_getLast (a b c e : ℤ) (f g : ℤ → Pos) (hce : c = e → f b = g e) :
    ((segFull a b).map f ++ (segTail c e).map g).getLast? = some (g e) := by
  rw [List.getLast?_append, List.getLast?_map, List.getLast?_map]
  by_cases hctl : c = e
  · rw [(segTail_eq_nil_iff c e).mpr hctl, segFull_getLast]
    simp [hce hctl]
  · rw [segTail_getLast hctl]
    rfl

/-- C7: for every start and end position and boolean `horizontal_first`,
`create_l_path` returns a nonempty Manhattan path that begins at `start`,
ends at `end`, moves one unit along exactly one axis per step, and
consists of one axis-aligned segment followed by one segment on the other
axis (at most one turn, axis order chosen by `horizontal_first`); when
start and end share an x or y coordinate the path is a straight line. -/
theorem C7_create_l_path (sx sy ex ey : ℤ) (hf : Bool) :
    create_l_path (sx, sy) (ex, ey) hf ≠ [] ∧
    (create_l_path (sx, sy) (ex, ey) hf).head? = some (sx, sy) ∧
    (create_l_path (sx, sy) (ex, ey) hf).getLast? = some (ex, ey) ∧
    List.Chain' isUnitStep (create_l_path (sx, sy) (ex, ey) hf) ∧
    (hf = true → ∃ xs ys : List ℤ,
      create_l_path (sx, sy) (ex, ey) hf =
        xs.map (fun x => ((x, sy) : Pos)) ++ ys.map (fun y => ((ex, y) : Pos))) ∧
    (hf = false → ∃ ys xs : List ℤ,
      create_l_path (sx, sy) (ex, ey) hf =
        ys.map (fun y => ((sx, y) : Pos)) ++ xs.map (fun x => ((x, ey) : Pos))) ∧
    (sx = ex → ∀ p ∈ create_l_path (sx, sy) (ex, ey) hf, p.1 = sx) ∧
    (sy = ey → ∀ p ∈ create_l_path (sx, sy) (ex, ey) hf, p.2 = sy) := by
  cases hf
  · rw [create_l_path_eq_false]
    refine ⟨lshape_ne_nil _ _ _ _ _ _, lshape_head _ _ _ _ _ _,
      lshape_getLast _ _ _ _ _ _ (fun h => by rw [h]), ?chain,
      fun h => absurd h (by decide), fun _ => ⟨segFull sy ey, segTail sx ex, rfl⟩,
      ?straightx, ?straighty⟩
    case chain =>
      rw [List.chain'_append]
      refine ⟨?_, ?_, ?_⟩
      · rw [List.chain'_map]
        exact (segFull_chain sy ey).imp (fun u v h => Or.inr ⟨rfl, h⟩)
      · rw [List.chain'_map]
        exact (segTail_chain sx ex).imp (fun u v h => Or.inl ⟨h, rfl⟩)
      · intro p hp q hq
        rw [List.getLast?_map, segFull_getLast, Option.map_some'] at hp
        rw [List.head?_map] at hq
        by_cases hxe : sx = ex
        · rw [(segTail_eq_nil_iff sx ex).mpr hxe] at hq
          simp at hq
        · obtain ⟨x0, hx0, hstep⟩ := segTail_head hxe
          rw [hx0, Option.map_some'] at hq
          rw [Option.mem_def, Option.some.injEq] at hp hq
          subst hp
          subst hq
          exact Or.inl ⟨hstep, rfl⟩
    case straightx =>
      intro hxe p hp
      rcases List.mem_append.mp hp with hmem | hmem
      · obtain ⟨y, _, rfl⟩ := List.mem_map.mp hmem
        rfl
      · obtain ⟨x, hx, rfl⟩ := List.mem_map.mp hmem
        subst hxe
        exact absurd hx segTail_mem_straight
    case straighty =>
      intro hye p hp
      rcases List.mem_append.mp hp with hmem | hmem
      · obtain ⟨y, hy, rfl⟩ := List.mem_map.mp hmem
        subst hye
        exact segFull_mem_straight hy
      · obtain ⟨x, _, rfl⟩ := List.mem_map.mp hmem
        exact hye.symm
  · rw [create_l_path_eq_true]
    refine ⟨lshape_ne_nil _ _ _ _ _ _, lshape_head _ _ _ _ _ _,
      lshape_getLast _ _ _ _ _ _ (fun h => by rw [h]), ?chain2,
      fun _ => ⟨segFull sx ex, segTail sy ey, rfl⟩,
      fun h => absurd h (by decide),
      ?straightx2, ?straighty2⟩
    case chain2 =>
      rw [List.chain'_append]
      refine ⟨?_, ?_, ?_⟩
      · rw [List.chain'_map]
        exact (segFull_chain sx ex).imp (fun u v h => Or.inl ⟨h, rfl⟩)
      · rw [List.chain'_map]
        exact (segTail_chain sy ey).imp (fun u v h => Or.inr ⟨rfl, h⟩)
      · intro p hp q hq
        rw [List.getLast?_map, segFull_getLast, Option.map_some'] at hp
        rw [List.head?_map] at hq
        by_cases hye : sy = ey
        · rw [(segTail_eq_nil_iff sy ey).mpr hye] at hq
          simp at hq
        · obtain ⟨y0, hy0, hstep⟩ := segTail_head hye
          rw [hy0, Option.map_some'] at hq
          rw [Option.mem_def, Option.some.injEq] at hp hq
          subst hp
          subst hq
          exact Or.inr ⟨rfl, hstep⟩
    case straightx2 =>
      intro hxe p hp
      rcases List.mem_append.mp hp with hmem | hmem
      · obtain ⟨x, hx, rfl⟩ := List.mem_map.mp hmem
        subst hxe
        exact segFull_mem_straight hx
      · obtain ⟨y, _, rfl⟩ := List.mem_map.mp hmem
        exact hxe.symm
    case straighty2 =>
      intro hye p hp
      rcases List.mem_append.mp hp with hmem | hmem
      · obtain ⟨x, _, rfl⟩ := List.mem_map.mp hmem
        rfl
      · obtain ⟨y, hy, rfl⟩ := List.mem_map.mp hmem
        subst hye
        exact absurd hy segTail_mem_straight

theorem C7_create_l_path_witness :
    (create_l_path (0, 0) (2, -1) true ≠ [] ∧
      (∃ xs ys : List ℤ,
        create_l_path (0, 0) (2, -1) true =
          xs.map (fun x => ((x, (0 : ℤ)) : Pos)) ++ ys.map (fun y => (((2 : ℤ), y) : Pos)))) ∧
    (∀ p ∈ create_l_path (3, 1) (3, 5) false, p.1 = 3) ∧
    (∀ p ∈ create_l_path (4, 2) (9, 2) true, p.2 = 2) :=
  ⟨⟨(C7_create_l_path 0 0 2 (-1) true).1,
    (C7_create_l_path 0 0 2 (-1) true).2.2.2.2.1 rfl⟩,
   (C7_create_l_path 3 1 3 5 false).2.2.2.2.2.2.1 rfl,
   (C7_create_l_path 4 2 9 2 true).2.2.2.2.2.2.2 rfl⟩

end CodeCity
